import Mathlib

/-!
# Acceptance-filter management of the LPC17xx CAN platform layer

A shallow embedding of `src/platform/lpc17xx/canutil.cpp`:
`updateAcceptanceFilterTable`, `setAcceptanceFilterStatus`, `popListEntry`,
`addAcceptanceFilter`, `removeAcceptanceFilter` and the controller bring-up of
`openxc::can::initialize` (here `initializeCanBus`).

* The two intrusive BSD lists of a bus (`acceptanceFilters`,
  `freeAcceptanceFilters`) are Lean lists whose head is `lh_first`.
* The file-level globals (`AF_TABLE`, `STANDARD_AF_TABLE`) and the state of the
  acceptance-filter peripheral `LPC_CANAF` are gathered in `Platform`, which is
  threaded through every function.
* The vendor driver entry points `CAN_SetAFMode` and `CAN_SetupAFLUT` are not
  part of the platform file; they are modelled at the boundary, and every call
  made to them is recorded in `Platform.calls`.
* Identifiers (`uint32_t`) are natural numbers; the code only compares them.
-/

namespace CanUtil

/-! ## Data model -/

/-- Receive modes of the acceptance filter that the platform file requests:
`CAN_Normal` (filtered) and `CAN_AccBP` (bypass). -/
inductive CAN_AFMODE_Type where
  | CAN_Normal
  | CAN_AccBP
deriving DecidableEq, Repr

/-- One standard-frame entry of the lookup table (`SFF_Entry`). -/
structure SFF_Entry where
  controller : Int
  disable : Bool
  id_11 : Nat
deriving DecidableEq, Repr

/-- The section descriptor handed to the driver (`AF_SectionDef`), restricted to
the standard-frame section, the only one the platform file fills in.
`SFF_Sec` points at `STANDARD_AF_TABLE`; the model stores the contents of the
array at the time of the assignment. -/
structure AF_SectionDef where
  SFF_Sec : List SFF_Entry
  SFF_NumEntry : Nat
deriving DecidableEq, Repr

/-- A call made to the vendor CAN driver. -/
inductive DriverCall where
  | SetAFMode (mode : CAN_AFMODE_Type)
  | SetupAFLUT (table : AF_SectionDef)
deriving DecidableEq, Repr

/-- File-level state of `canutil.cpp` together with the shared acceptance-filter
peripheral: the receive mode last set on `LPC_CANAF`, the globals
`STANDARD_AF_TABLE` and `AF_TABLE`, and the driver calls issued so far, oldest
first. -/
structure Platform where
  afMode : CAN_AFMODE_Type
  STANDARD_AF_TABLE : List SFF_Entry
  AF_TABLE : AF_SectionDef
  calls : List DriverCall
deriving DecidableEq, Repr

/-- A node of an acceptance filter list (`AcceptanceFilterListEntry`).
`slot` stands for the address of the node in the preallocated backing storage,
`filter` is the identifier stored in it. -/
structure AcceptanceFilterListEntry where
  slot : Nat
  filter : Nat
deriving DecidableEq, Repr

/-- The part of `CanBus` used by the acceptance-filter code. -/
structure CanBus where
  address : Int
  acceptanceFilters : List AcceptanceFilterListEntry
  freeAcceptanceFilters : List AcceptanceFilterListEntry
deriving DecidableEq, Repr

/-! ## Driver boundary -/

/-- Modelled from the spec: the vendor driver routine `CAN_SetAFMode`, whose body
is not in the platform file. The boundary contract is "set receive mode to
normal or bypass"; the peripheral is shared by all controllers. -/
def CAN_SetAFMode (hw : Platform) (mode : CAN_AFMODE_Type) : Platform :=
  { hw with afMode := mode, calls := hw.calls ++ [DriverCall.SetAFMode mode] }

/-- Modelled from the spec: the vendor driver routine `CAN_SetupAFLUT`, whose body
is not in the platform file. The boundary contract is "apply filter table T,
returning whether the hardware accepted it"; the outcome is supplied by
`setupOk`, which sees the whole platform state at the time of the call, and the
receive mode is left as it is. The result is `true` for `CAN_OK`. -/
def CAN_SetupAFLUT (setupOk : Platform → Bool) (hw : Platform) : Bool × Platform :=
  (setupOk hw, { hw with calls := hw.calls ++ [DriverCall.SetupAFLUT hw.AF_TABLE] })

/-! ## The platform file -/

/-- Embedding of `updateAcceptanceFilterTable`: writes entry 0 of
`STANDARD_AF_TABLE` (controller `bus->address - 1`, enabled, identifier `0x08`),
points `AF_TABLE` at the array with `SFF_NumEntry = 6`, and hands it to the
driver. -/
def updateAcceptanceFilterTable (setupOk : Platform → Bool) (hw : Platform)
    (bus : CanBus) : Bool × Platform :=
  let table := hw.STANDARD_AF_TABLE.modify
    (fun e => { e with controller := bus.address - 1, disable := false, id_11 := 0x08 }) 0
  let hw1 : Platform :=
    { hw with STANDARD_AF_TABLE := table,
              AF_TABLE := { hw.AF_TABLE with SFF_Sec := table, SFF_NumEntry := 6 } }
  CAN_SetupAFLUT setupOk hw1

/-- Embedding of `openxc::can::setAcceptanceFilterStatus`: the bus argument is
not used, the mode is set on the shared peripheral, and the result is `true`. -/
def setAcceptanceFilterStatus (hw : Platform) (_bus : CanBus) (enabled : Bool) :
    Bool × Platform :=
  if enabled then
    (true, CAN_SetAFMode hw CAN_AFMODE_Type.CAN_Normal)
  else
    (true, CAN_SetAFMode hw CAN_AFMODE_Type.CAN_AccBP)

/-- Embedding of `popListEntry`: unlinks and returns the head of the list, or
returns `none` (a null pointer) and leaves the list alone when it is empty. -/
def popListEntry (list : List AcceptanceFilterListEntry) :
    Option AcceptanceFilterListEntry × List AcceptanceFilterListEntry :=
  match list with
  | [] => (none, [])
  | result :: rest => (some result, rest)

/-- The scan shared by `addAcceptanceFilter` and `removeAcceptanceFilter`:
walks the list from `lh_first` along `le_next` and stops at the first entry
with `entry->filter == id`. The result is the position of that node, or `none`
when the walk reaches the end of the list. -/
def findFilter : List AcceptanceFilterListEntry → Nat → Option Nat
  | [], _ => none
  | entry :: rest, id =>
    if entry.filter = id then some 0
    else (findFilter rest id).map (· + 1)

/-- Embedding of `LIST_REMOVE(entry, entries)` for the node at position `i`. -/
def LIST_REMOVE (list : List AcceptanceFilterListEntry) (i : Nat) :
    List AcceptanceFilterListEntry :=
  list.eraseIdx i

/-- Embedding of `LIST_INSERT_HEAD`. -/
def LIST_INSERT_HEAD (list : List AcceptanceFilterListEntry)
    (elm : AcceptanceFilterListEntry) : List AcceptanceFilterListEntry :=
  elm :: list

/-- Embedding of `openxc::can::addAcceptanceFilter`. Returns the result of the
call, the platform state and the bus afterwards. -/
def addAcceptanceFilter (setupOk : Platform → Bool) (hw : Platform) (bus : CanBus)
    (id : Nat) : Bool × Platform × CanBus :=
  let hw1 := (setAcceptanceFilterStatus hw bus true).2
  match findFilter bus.acceptanceFilters id with
  | some _ => (true, hw1, bus)
  | none =>
    match popListEntry bus.freeAcceptanceFilters with
    | (none, _) => (false, hw1, bus)
    | (some availableFilter, free) =>
      let bus1 : CanBus :=
        { bus with
          freeAcceptanceFilters := free,
          acceptanceFilters :=
            LIST_INSERT_HEAD bus.acceptanceFilters { availableFilter with filter := id } }
      let r := updateAcceptanceFilterTable setupOk hw1 bus1
      (r.1, r.2, bus1)

/-- Embedding of `openxc::can::removeAcceptanceFilter`. Returns the platform
state and the bus afterwards. -/
def removeAcceptanceFilter (setupOk : Platform → Bool) (hw : Platform) (bus : CanBus)
    (id : Nat) : Platform × CanBus :=
  match findFilter bus.acceptanceFilters id with
  | none => (hw, bus)
  | some i =>
    let bus1 : CanBus :=
      { bus with acceptanceFilters := LIST_REMOVE bus.acceptanceFilters i }
    let hw1 :=
      if bus1.acceptanceFilters.isEmpty then
        (setAcceptanceFilterStatus hw bus1 false).2
      else hw
    ((updateAcceptanceFilterTable setupOk hw1 bus1).2, bus1)

/-! ## Controller bring-up -/

/-- Operating modes that the bring-up passes to `CAN_ModeConfig`. -/
inductive CAN_MODE_Type where
  | CAN_OPERATING_MODE
  | CAN_LISTENONLY_MODE
deriving DecidableEq, Repr

/-- Interrupt sources that the bring-up passes to `CAN_IRQCmd`. -/
inductive CAN_INT_EN_Type where
  | CANINT_RIE
  | CANINT_TIE1
deriving DecidableEq, Repr

/-- A call that the bring-up makes to the vendor driver or to the interrupt
controller. The controller `CAN_CONTROLLER(bus)` is named by the address of its
bus. -/
inductive ControllerCall where
  | CAN_Init (address : Int) (speed : Nat)
  | CAN_ModeConfig (address : Int) (mode : CAN_MODE_Type)
  | CAN_IRQCmd (address : Int) (irq : CAN_INT_EN_Type)
  | NVIC_EnableIRQ
deriving DecidableEq, Repr

/-- What the bring-up loop reads of one element of `getCanBuses()`. -/
structure CanBusConfig where
  address : Int
  speed : Nat
deriving DecidableEq, Repr

/-- A step of the bring-up as the trace records it: a controller call, stamped
with the value that the static `CAN_CONTROLLER_INITIALIZED` has at the time of
the call, or the assignment `CAN_CONTROLLER_INITIALIZED = true` itself. -/
inductive BringUpStep where
  | call (c : ControllerCall) (initialized : Bool)
  | setInitialized
deriving DecidableEq, Repr

/-- The function-local static `CAN_CONTROLLER_INITIALIZED` together with the
steps taken so far, oldest first. -/
structure BringUp where
  CAN_CONTROLLER_INITIALIZED : Bool
  steps : List BringUpStep
deriving DecidableEq, Repr

/-- The state at process start: the static is `false` and no step was taken. -/
def processStart : BringUp :=
  { CAN_CONTROLLER_INITIALIZED := false, steps := [] }

/-- Issues one controller call: the trace gets the call together with the value
of the static at that moment. -/
def controllerCall (st : BringUp) (c : ControllerCall) : BringUp :=
  { st with steps := st.steps ++ [BringUpStep.call c st.CAN_CONTROLLER_INITIALIZED] }

/-- The assignment `CAN_CONTROLLER_INITIALIZED = true`, recorded in the trace. -/
def setControllerInitialized (st : BringUp) : BringUp :=
  { st with CAN_CONTROLLER_INITIALIZED := true,
            steps := st.steps ++ [BringUpStep.setInitialized] }

/-- The loop `for(int i = 0; i < getCanBusCount(); i++) CAN_Init(...)` run over
the given elements of `getCanBuses()`, in order. -/
def canInitLoop (canBuses : List CanBusConfig) (st : BringUp) : BringUp :=
  canBuses.foldl
    (fun st b => controllerCall st (ControllerCall.CAN_Init b.address b.speed))
    st

/-- Embedding of `openxc::can::initialize`. `canBuses` is the configured bus
array (`getCanBuses()`, `getCanBusCount()`); `initializeCommon` and
`configureDefaultFilters` live outside the platform file and are taken as they
come, acting on the bus and on the filter state. The pin and transceiver
set-up writes GPIO registers only and the sections of `AF_TABLE` cleared here
are outside `AF_SectionDef` as modelled, so neither appears. -/
def initializeCanBus (canBuses : List CanBusConfig) (initializeCommon : CanBus → CanBus)
    (configureDefaultFilters : Platform → CanBus → Bool × Platform × CanBus)
    (st : BringUp) (hw : Platform) (bus : CanBus) (writable : Bool) :
    BringUp × Platform × CanBus :=
  let bus1 := initializeCommon bus
  let st1 : BringUp :=
    if !st.CAN_CONTROLLER_INITIALIZED then
      setControllerInitialized (canInitLoop canBuses st)
    else st
  let mode :=
    if writable then CAN_MODE_Type.CAN_OPERATING_MODE
    else CAN_MODE_Type.CAN_LISTENONLY_MODE
  let st2 := controllerCall st1 (ControllerCall.CAN_ModeConfig bus1.address mode)
  let st3 := controllerCall st2
    (ControllerCall.CAN_IRQCmd bus1.address CAN_INT_EN_Type.CANINT_RIE)
  let st4 := controllerCall st3
    (ControllerCall.CAN_IRQCmd bus1.address CAN_INT_EN_Type.CANINT_TIE1)
  let st5 := controllerCall st4 ControllerCall.NVIC_EnableIRQ
  let r := configureDefaultFilters hw bus1
  (st5, r.2.1, r.2.2)

/-- Consecutive calls of `openxc::can::initialize`, each with its bus and its
`writable` flag, in order. Returns the bring-up state and the filter state. -/
def initializeCanBuses (canBuses : List CanBusConfig) (initializeCommon : CanBus → CanBus)
    (configureDefaultFilters : Platform → CanBus → Bool × Platform × CanBus)
    (st : BringUp) (hw : Platform) : List (CanBus × Bool) → BringUp × Platform
  | [] => (st, hw)
  | call :: calls =>
    let r := initializeCanBus canBuses initializeCommon configureDefaultFilters st hw
      call.1 call.2
    initializeCanBuses canBuses initializeCommon configureDefaultFilters r.1 r.2.1 calls

/-- The `CAN_Init` calls of a trace, in order, each with its controller and
speed. -/
def canInitCalls : List BringUpStep → List (Int × Nat)
  | [] => []
  | BringUpStep.call (ControllerCall.CAN_Init address speed) _ :: cs =>
    (address, speed) :: canInitCalls cs
  | _ :: cs => canInitCalls cs

/-- The number of assignments `CAN_CONTROLLER_INITIALIZED = true` in a trace. -/
def countSetInitialized : List BringUpStep → Nat
  | [] => 0
  | BringUpStep.setInitialized :: cs => countSetInitialized cs + 1
  | BringUpStep.call _ _ :: cs => countSetInitialized cs

/-! ## Derived notions used to state the properties -/

/-- The identifiers currently assigned on a bus, head of the list first. -/
def assignedIds (bus : CanBus) : List Nat :=
  bus.acceptanceFilters.map (fun e => e.filter)

/-- Consecutive calls of `addAcceptanceFilter` on one bus, one per identifier, in
order. Returns the results of the calls (in order) and the final state. -/
def addAcceptanceFilters (setupOk : Platform → Bool) (hw : Platform) (bus : CanBus) :
    List Nat → List Bool × Platform × CanBus
  | [] => ([], hw, bus)
  | id :: ids =>
    let r := addAcceptanceFilter setupOk hw bus id
    let rs := addAcceptanceFilters setupOk r.2.1 r.2.2 ids
    (r.1 :: rs.1, rs.2.1, rs.2.2)

/-- Modelled from the spec: the platform state at bring-up, before any filter
operation (the bring-up code is outside the platform file's filter functions).
The receive mode is bypass, `STANDARD_AF_TABLE` is a zeroed array of
`MAX_ACCEPTANCE_FILTERS` entries, `AF_TABLE` has no standard-frame section yet
and no driver call has been made. -/
def initialPlatform (MAX_ACCEPTANCE_FILTERS : Nat) : Platform :=
  { afMode := CAN_AFMODE_Type.CAN_AccBP,
    STANDARD_AF_TABLE := List.replicate MAX_ACCEPTANCE_FILTERS ⟨0, false, 0⟩,
    AF_TABLE := ⟨[], 0⟩,
    calls := [] }

/-- Modelled from the spec: a bus as the common bring-up code (`initializeCommon`,
not in the platform file) leaves it: the assigned list is empty and the free
list holds all `MAX_ACCEPTANCE_FILTERS` preallocated entries. -/
def initialBus (address : Int) (MAX_ACCEPTANCE_FILTERS : Nat) : CanBus :=
  { address := address,
    acceptanceFilters := [],
    freeAcceptanceFilters := (List.range MAX_ACCEPTANCE_FILTERS).map (fun i => ⟨i, 0⟩) }

/-- A filter operation requested by a caller. -/
inductive FilterOp where
  | add (id : Nat)
  | remove (id : Nat)
deriving DecidableEq, Repr

/-- Performs one filter operation on a bus, dropping the result of an add. -/
def applyOp (setupOk : Platform → Bool) (s : Platform × CanBus) :
    FilterOp → Platform × CanBus
  | FilterOp.add id => (addAcceptanceFilter setupOk s.1 s.2 id).2
  | FilterOp.remove id => removeAcceptanceFilter setupOk s.1 s.2 id

/-- Performs a sequence of filter operations on a bus, first operation first. -/
def runOps (setupOk : Platform → Bool) (s : Platform × CanBus) (ops : List FilterOp) :
    Platform × CanBus :=
  ops.foldl (applyOp setupOk) s

/-- The number of `CAN_SetupAFLUT` calls in a list of driver calls. -/
def countSetupAFLUT : List DriverCall → Nat
  | [] => 0
  | DriverCall.SetupAFLUT _ :: cs => countSetupAFLUT cs + 1
  | DriverCall.SetAFMode _ :: cs => countSetupAFLUT cs

/-- Consecutive calls of `removeAcceptanceFilter` on one bus, one per identifier,
in order. Returns, for each call, the receive mode and the assigned count right
after it, and the final state. -/
def removeAcceptanceFilters (setupOk : Platform → Bool) (hw : Platform) (bus : CanBus) :
    List Nat → List (CAN_AFMODE_Type × Nat) × Platform × CanBus
  | [] => ([], hw, bus)
  | id :: ids =>
    let r := removeAcceptanceFilter setupOk hw bus id
    let rs := removeAcceptanceFilters setupOk r.1 r.2 ids
    ((r.1.afMode, r.2.acceptanceFilters.length) :: rs.1, rs.2.1, rs.2.2)

/-- Whether `addAcceptanceFilter(bus, id)` takes the allocating path, that is
reaches `availableFilter->filter = id`: the scan does not find `id` and
`popListEntry` returns an entry. -/
def allocates (bus : CanBus) (id : Nat) : Bool :=
  (findFilter bus.acceptanceFilters id).isNone && (popListEntry bus.freeAcceptanceFilters).1.isSome

/-- The number of `addAcceptanceFilter` calls that take the allocating path along
a sequence of filter operations started in state `s`. -/
def countAllocations (setupOk : Platform → Bool) (s : Platform × CanBus) :
    List FilterOp → Nat
  | [] => 0
  | FilterOp.add id :: ops =>
    (if allocates s.2 id then 1 else 0)
      + countAllocations setupOk (applyOp setupOk s (FilterOp.add id)) ops
  | FilterOp.remove id :: ops =>
    countAllocations setupOk (applyOp setupOk s (FilterOp.remove id)) ops

/-- The receive mode and assigned count that consecutive removals leave behind,
computed from the receive mode and the assigned identifiers alone: a removal
drops the first occurrence of its identifier, and requests bypass when it found
the identifier and nothing remains assigned. -/
def removalTrace : CAN_AFMODE_Type → List Nat → List Nat → List (CAN_AFMODE_Type × Nat)
  | _, _, [] => []
  | mode, assigned, id :: ids =>
    let mode1 :=
      if id ∈ assigned ∧ assigned.erase id = [] then CAN_AFMODE_Type.CAN_AccBP else mode
    (mode1, (assigned.erase id).length) :: removalTrace mode1 (assigned.erase id) ids

/-! ### Two buses on the shared acceptance filter -/

/-- Two buses and the platform state they share. -/
structure TwoBuses where
  hw : Platform
  busA : CanBus
  busB : CanBus
deriving DecidableEq, Repr

/-- A filter operation on one of two buses. -/
inductive TwoBusOp where
  | onA (op : FilterOp)
  | onB (op : FilterOp)
deriving DecidableEq, Repr

/-- Performs one filter operation on the bus it names; the other bus is not
passed to the code and keeps its lists. -/
def applyTwoBusOp (setupOk : Platform → Bool) (s : TwoBuses) : TwoBusOp → TwoBuses
  | TwoBusOp.onA op =>
    { s with hw := (applyOp setupOk (s.hw, s.busA) op).1,
             busA := (applyOp setupOk (s.hw, s.busA) op).2 }
  | TwoBusOp.onB op =>
    { s with hw := (applyOp setupOk (s.hw, s.busB) op).1,
             busB := (applyOp setupOk (s.hw, s.busB) op).2 }

/-- Performs a sequence of filter operations on two buses, first one first. -/
def runTwoBusOps (setupOk : Platform → Bool) (s : TwoBuses) (ops : List TwoBusOp) :
    TwoBuses :=
  ops.foldl (applyTwoBusOp setupOk) s

/-! ## Basic facts about the scan and the two operations -/

theorem findFilter_eq_none_iff (l : List AcceptanceFilterListEntry) (id : Nat) :
    findFilter l id = none ↔ id ∉ l.map (fun e => e.filter) := by
  induction l with
  | nil => simp [findFilter]
  | cons e rest ih =>
    by_cases h : e.filter = id
    · simp [findFilter, h]
    · have h2 : ¬ id = e.filter := fun h3 => h h3.symm
      simp [findFilter, h, h2, ih]

theorem findFilter_lt (l : List AcceptanceFilterListEntry) (id i : Nat)
    (h : findFilter l id = some i) : i < l.length := by
  induction l generalizing i with
  | nil => simp [findFilter] at h
  | cons e rest ih =>
    by_cases he : e.filter = id
    · simp [findFilter, he] at h
      subst h
      simp
    · cases hr : findFilter rest id with
      | none => simp [findFilter, he, hr] at h
      | some j =>
        simp [findFilter, he, hr] at h
        have := ih j hr
        simp
        omega

theorem findFilter_isSome_of_mem (l : List AcceptanceFilterListEntry) (id : Nat)
    (h : id ∈ l.map (fun e => e.filter)) : ∃ i, findFilter l id = some i := by
  cases hf : findFilter l id with
  | none => exact absurd h ((findFilter_eq_none_iff l id).1 hf)
  | some i => exact ⟨i, rfl⟩

/-- The duplicate path of `addAcceptanceFilter`: the identifier is found in the
assigned list, the call returns `true` right after requesting normal mode. -/
theorem addAcceptanceFilter_of_assigned (setupOk : Platform → Bool) (hw : Platform)
    (bus : CanBus) (id : Nat) (h : id ∈ assignedIds bus) :
    addAcceptanceFilter setupOk hw bus id
      = (true, CAN_SetAFMode hw CAN_AFMODE_Type.CAN_Normal, bus) := by
  obtain ⟨i, hi⟩ := findFilter_isSome_of_mem bus.acceptanceFilters id h
  simp [addAcceptanceFilter, hi, setAcceptanceFilterStatus]

/-- The exhausted path of `addAcceptanceFilter`: no free entry is left. -/
theorem addAcceptanceFilter_of_exhausted (setupOk : Platform → Bool) (hw : Platform)
    (bus : CanBus) (id : Nat) (h : id ∉ assignedIds bus)
    (hfree : bus.freeAcceptanceFilters = []) :
    addAcceptanceFilter setupOk hw bus id
      = (false, CAN_SetAFMode hw CAN_AFMODE_Type.CAN_Normal, bus) := by
  have hn := (findFilter_eq_none_iff bus.acceptanceFilters id).2 h
  simp [addAcceptanceFilter, hn, hfree, popListEntry, setAcceptanceFilterStatus]

/-- The allocating path of `addAcceptanceFilter`: the head of the free list is
moved to the head of the assigned list with the new identifier, and the result
is that of the table update. -/
theorem addAcceptanceFilter_of_free (setupOk : Platform → Bool) (hw : Platform)
    (bus : CanBus) (id : Nat) (e : AcceptanceFilterListEntry)
    (rest : List AcceptanceFilterListEntry) (h : id ∉ assignedIds bus)
    (hfree : bus.freeAcceptanceFilters = e :: rest) :
    addAcceptanceFilter setupOk hw bus id
      = ((updateAcceptanceFilterTable setupOk (CAN_SetAFMode hw CAN_AFMODE_Type.CAN_Normal)
            { bus with freeAcceptanceFilters := rest,
                       acceptanceFilters := { e with filter := id } :: bus.acceptanceFilters }).1,
         (updateAcceptanceFilterTable setupOk (CAN_SetAFMode hw CAN_AFMODE_Type.CAN_Normal)
            { bus with freeAcceptanceFilters := rest,
                       acceptanceFilters := { e with filter := id } :: bus.acceptanceFilters }).2,
         { bus with freeAcceptanceFilters := rest,
                    acceptanceFilters := { e with filter := id } :: bus.acceptanceFilters }) := by
  have hn := (findFilter_eq_none_iff bus.acceptanceFilters id).2 h
  simp [addAcceptanceFilter, hn, hfree, popListEntry, setAcceptanceFilterStatus,
    LIST_INSERT_HEAD]

theorem updateAcceptanceFilterTable_afMode (setupOk : Platform → Bool) (hw : Platform)
    (bus : CanBus) :
    (updateAcceptanceFilterTable setupOk hw bus).2.afMode = hw.afMode := by
  simp [updateAcceptanceFilterTable, CAN_SetupAFLUT]

theorem updateAcceptanceFilterTable_result (setupOk : Platform → Bool) (hw : Platform)
    (bus : CanBus) (hok : ∀ p, setupOk p = true) :
    (updateAcceptanceFilterTable setupOk hw bus).1 = true := by
  simp [updateAcceptanceFilterTable, CAN_SetupAFLUT, hok]

/-- Adding pairwise distinct, not yet assigned identifiers while free entries
last: each call takes the head of the free list, the identifiers pile up at the
head of the assigned list, and every call returns the outcome of the driver. -/
theorem addAcceptanceFilters_distinct (setupOk : Platform → Bool) (ids : List Nat) :
    ∀ (hw : Platform) (bus : CanBus), ids.Nodup → (∀ i ∈ ids, i ∉ assignedIds bus) →
      ids.length ≤ bus.freeAcceptanceFilters.length →
      assignedIds (addAcceptanceFilters setupOk hw bus ids).2.2
          = ids.reverse ++ assignedIds bus ∧
        (addAcceptanceFilters setupOk hw bus ids).2.2.freeAcceptanceFilters
          = bus.freeAcceptanceFilters.drop ids.length ∧
        ((∀ p, setupOk p = true) →
          (addAcceptanceFilters setupOk hw bus ids).1 = List.replicate ids.length true) := by
  induction ids with
  | nil => intro hw bus _ _ _; simp [addAcceptanceFilters]
  | cons id ids ih =>
    intro hw bus hnd hnew hlen
    have hid : id ∉ assignedIds bus := hnew id (List.mem_cons_self id ids)
    obtain ⟨e, rest, hfree⟩ : ∃ e rest, bus.freeAcceptanceFilters = e :: rest := by
      cases hf : bus.freeAcceptanceFilters with
      | nil => simp [hf] at hlen
      | cons e rest => exact ⟨e, rest, rfl⟩
    have hstep := addAcceptanceFilter_of_free setupOk hw bus id e rest hid hfree
    have hnd2 : ids.Nodup := (List.nodup_cons.1 hnd).2
    have hnotin : id ∉ ids := (List.nodup_cons.1 hnd).1
    have hlen2 : ids.length ≤ rest.length := by
      rw [hfree] at hlen
      simpa using hlen
    have hnew2 : ∀ i ∈ ids, i ∉ assignedIds
        { bus with freeAcceptanceFilters := rest,
                   acceptanceFilters := { e with filter := id } :: bus.acceptanceFilters } := by
      intro i hi hmem
      simp only [assignedIds, List.map_cons, List.mem_cons] at hmem
      rcases hmem with h | h
      · exact hnotin (h ▸ hi)
      · exact hnew i (List.mem_cons_of_mem id hi) h
    obtain ⟨h1, h2, h3⟩ := ih
      (updateAcceptanceFilterTable setupOk (CAN_SetAFMode hw CAN_AFMODE_Type.CAN_Normal)
        { bus with freeAcceptanceFilters := rest,
                   acceptanceFilters := { e with filter := id } :: bus.acceptanceFilters }).2
      { bus with freeAcceptanceFilters := rest,
                 acceptanceFilters := { e with filter := id } :: bus.acceptanceFilters }
      hnd2 hnew2 hlen2
    refine ⟨?_, ?_, ?_⟩
    · simp only [addAcceptanceFilters, hstep]
      rw [h1]
      simp [assignedIds]
    · simp only [addAcceptanceFilters, hstep]
      rw [h2, hfree]
      simp
    · intro hok
      simp only [addAcceptanceFilters, hstep]
      rw [h3 hok, updateAcceptanceFilterTable_result setupOk _ _ hok]
      simp [List.replicate_succ]

/-! ## Capacity -/

/-- C1 (capacity). Start from a bus whose assigned list is empty and whose free
list holds `MAX_SLOTS` entries, and call `addAcceptanceFilter` once for each of
`MAX_SLOTS` pairwise distinct identifiers, the driver accepting every table.
All these calls return `true` and `MAX_SLOTS` filters are assigned. For every
identifier not among them the next `addAcceptanceFilter` returns `false` and
leaves the assigned list, hence the assigned count `MAX_SLOTS`, unchanged. -/
theorem capacity_exhausted (MAX_SLOTS : Nat) (setupOk : Platform → Bool) (hw : Platform)
    (bus : CanBus) (ids : List Nat) (id : Nat)
    (hok : ∀ p, setupOk p = true)
    (hempty : bus.acceptanceFilters = [])
    (hfree : bus.freeAcceptanceFilters.length = MAX_SLOTS)
    (hlen : ids.length = MAX_SLOTS) (hnodup : ids.Nodup) (hid : id ∉ ids) :
    (addAcceptanceFilters setupOk hw bus ids).1 = List.replicate MAX_SLOTS true ∧
    (addAcceptanceFilters setupOk hw bus ids).2.2.acceptanceFilters.length = MAX_SLOTS ∧
    (addAcceptanceFilter setupOk (addAcceptanceFilters setupOk hw bus ids).2.1
        (addAcceptanceFilters setupOk hw bus ids).2.2 id).1 = false ∧
    (addAcceptanceFilter setupOk (addAcceptanceFilters setupOk hw bus ids).2.1
        (addAcceptanceFilters setupOk hw bus ids).2.2 id).2.2.acceptanceFilters
      = (addAcceptanceFilters setupOk hw bus ids).2.2.acceptanceFilters := by
  have hnew : ∀ i ∈ ids, i ∉ assignedIds bus := by
    intro i _
    simp [assignedIds, hempty]
  obtain ⟨h1, h2, h3⟩ := addAcceptanceFilters_distinct setupOk ids hw bus hnodup hnew
    (by omega)
  have hassigned : assignedIds (addAcceptanceFilters setupOk hw bus ids).2.2 = ids.reverse := by
    rw [h1]
    simp [assignedIds, hempty]
  have hidnew : id ∉ assignedIds (addAcceptanceFilters setupOk hw bus ids).2.2 := by
    rw [hassigned]
    simpa using hid
  have hnofree : (addAcceptanceFilters setupOk hw bus ids).2.2.freeAcceptanceFilters = [] := by
    rw [h2]
    exact List.drop_eq_nil_of_le (by omega)
  have hcount : (addAcceptanceFilters setupOk hw bus ids).2.2.acceptanceFilters.length
      = MAX_SLOTS := by
    have := congrArg List.length hassigned
    simpa [assignedIds, hlen] using this
  have hlast := addAcceptanceFilter_of_exhausted setupOk
    (addAcceptanceFilters setupOk hw bus ids).2.1
    (addAcceptanceFilters setupOk hw bus ids).2.2 id hidnew hnofree
  refine ⟨?_, hcount, ?_, ?_⟩
  · rw [h3 hok, hlen]
  · rw [hlast]
  · rw [hlast]

/-- C1 witness: three free slots, identifiers `0x10, 0x20, 0x30`, then `0x40`. -/
theorem capacity_exhausted_witness :
    (addAcceptanceFilters (fun _ => true) (initialPlatform 3) (initialBus 1 3)
        [0x10, 0x20, 0x30]).1 = List.replicate 3 true ∧
    (addAcceptanceFilters (fun _ => true) (initialPlatform 3) (initialBus 1 3)
        [0x10, 0x20, 0x30]).2.2.acceptanceFilters.length = 3 ∧
    (addAcceptanceFilter (fun _ => true)
        (addAcceptanceFilters (fun _ => true) (initialPlatform 3) (initialBus 1 3)
          [0x10, 0x20, 0x30]).2.1
        (addAcceptanceFilters (fun _ => true) (initialPlatform 3) (initialBus 1 3)
          [0x10, 0x20, 0x30]).2.2 0x40).1 = false ∧
    (addAcceptanceFilter (fun _ => true)
        (addAcceptanceFilters (fun _ => true) (initialPlatform 3) (initialBus 1 3)
          [0x10, 0x20, 0x30]).2.1
        (addAcceptanceFilters (fun _ => true) (initialPlatform 3) (initialBus 1 3)
          [0x10, 0x20, 0x30]).2.2 0x40).2.2.acceptanceFilters
      = (addAcceptanceFilters (fun _ => true) (initialPlatform 3) (initialBus 1 3)
          [0x10, 0x20, 0x30]).2.2.acceptanceFilters :=
  capacity_exhausted 3 (fun _ => true) (initialPlatform 3) (initialBus 1 3)
    [0x10, 0x20, 0x30] 0x40 (fun _ => rfl) rfl rfl rfl (by decide) (by decide)

/-! ## Dedup -/

theorem removeAcceptanceFilter_of_found (setupOk : Platform → Bool) (hw : Platform)
    (bus : CanBus) (id i : Nat) (h : findFilter bus.acceptanceFilters id = some i) :
    removeAcceptanceFilter setupOk hw bus id
      = ((updateAcceptanceFilterTable setupOk
            (if (bus.acceptanceFilters.eraseIdx i).isEmpty then
              CAN_SetAFMode hw CAN_AFMODE_Type.CAN_AccBP else hw)
            { bus with acceptanceFilters := bus.acceptanceFilters.eraseIdx i }).2,
         { bus with acceptanceFilters := bus.acceptanceFilters.eraseIdx i }) := by
  simp [removeAcceptanceFilter, h, LIST_REMOVE, setAcceptanceFilterStatus]

/-- C2 (dedup). When `id` is not assigned and a free slot exists (the driver
accepting every table), calling `addAcceptanceFilter(bus, id)` twice in a row
raises the assigned count by exactly one: the first call returns `true` and
assigns `id`, the second call returns `true` and leaves the bus, that is both
the assigned list and the free list, exactly as the first call left it. -/
theorem dedup_add_twice (setupOk : Platform → Bool) (hw : Platform) (bus : CanBus)
    (id : Nat) (hok : ∀ p, setupOk p = true) (hnew : id ∉ assignedIds bus)
    (hfree : bus.freeAcceptanceFilters ≠ []) :
    (addAcceptanceFilter setupOk hw bus id).1 = true ∧
    (addAcceptanceFilter setupOk (addAcceptanceFilter setupOk hw bus id).2.1
        (addAcceptanceFilter setupOk hw bus id).2.2 id).1 = true ∧
    (addAcceptanceFilter setupOk (addAcceptanceFilter setupOk hw bus id).2.1
        (addAcceptanceFilter setupOk hw bus id).2.2 id).2.2.acceptanceFilters
      = (addAcceptanceFilter setupOk hw bus id).2.2.acceptanceFilters ∧
    (addAcceptanceFilter setupOk (addAcceptanceFilter setupOk hw bus id).2.1
        (addAcceptanceFilter setupOk hw bus id).2.2 id).2.2.freeAcceptanceFilters
      = (addAcceptanceFilter setupOk hw bus id).2.2.freeAcceptanceFilters ∧
    (addAcceptanceFilter setupOk (addAcceptanceFilter setupOk hw bus id).2.1
        (addAcceptanceFilter setupOk hw bus id).2.2 id).2.2.acceptanceFilters.length
      = bus.acceptanceFilters.length + 1 := by
  obtain ⟨e, rest, hf⟩ : ∃ e rest, bus.freeAcceptanceFilters = e :: rest := by
    cases hf : bus.freeAcceptanceFilters with
    | nil => exact absurd hf hfree
    | cons e rest => exact ⟨e, rest, rfl⟩
  have h1 := addAcceptanceFilter_of_free setupOk hw bus id e rest hnew hf
  have hin : id ∈ assignedIds (addAcceptanceFilter setupOk hw bus id).2.2 := by
    rw [h1]
    simp [assignedIds]
  have h2 := addAcceptanceFilter_of_assigned setupOk
    (addAcceptanceFilter setupOk hw bus id).2.1 (addAcceptanceFilter setupOk hw bus id).2.2
    id hin
  refine ⟨?_, ?_, ?_, ?_, ?_⟩
  · rw [h1]
    exact updateAcceptanceFilterTable_result setupOk _ _ hok
  · rw [h2]
  · rw [h2]
  · rw [h2]
  · rw [h2, h1]
    simp

/-- C2 witness: identifier `0x100` on a fresh bus with six free slots. -/
theorem dedup_add_twice_witness :
    (addAcceptanceFilter (fun _ => true) (initialPlatform 6) (initialBus 1 6) 0x100).1 = true ∧
    (addAcceptanceFilter (fun _ => true)
        (addAcceptanceFilter (fun _ => true) (initialPlatform 6) (initialBus 1 6) 0x100).2.1
        (addAcceptanceFilter (fun _ => true) (initialPlatform 6) (initialBus 1 6) 0x100).2.2
        0x100).1 = true ∧
    (addAcceptanceFilter (fun _ => true)
        (addAcceptanceFilter (fun _ => true) (initialPlatform 6) (initialBus 1 6) 0x100).2.1
        (addAcceptanceFilter (fun _ => true) (initialPlatform 6) (initialBus 1 6) 0x100).2.2
        0x100).2.2.acceptanceFilters
      = (addAcceptanceFilter (fun _ => true) (initialPlatform 6) (initialBus 1 6)
          0x100).2.2.acceptanceFilters ∧
    (addAcceptanceFilter (fun _ => true)
        (addAcceptanceFilter (fun _ => true) (initialPlatform 6) (initialBus 1 6) 0x100).2.1
        (addAcceptanceFilter (fun _ => true) (initialPlatform 6) (initialBus 1 6) 0x100).2.2
        0x100).2.2.freeAcceptanceFilters
      = (addAcceptanceFilter (fun _ => true) (initialPlatform 6) (initialBus 1 6)
          0x100).2.2.freeAcceptanceFilters ∧
    (addAcceptanceFilter (fun _ => true)
        (addAcceptanceFilter (fun _ => true) (initialPlatform 6) (initialBus 1 6) 0x100).2.1
        (addAcceptanceFilter (fun _ => true) (initialPlatform 6) (initialBus 1 6) 0x100).2.2
        0x100).2.2.acceptanceFilters.length
      = (initialBus 1 6).acceptanceFilters.length + 1 :=
  dedup_add_twice (fun _ => true) (initialPlatform 6) (initialBus 1 6) 0x100
    (fun _ => rfl) (by decide) (by decide)

/-! ## Mode transitions -/

/-- The receive mode after `removeAcceptanceFilter` found the identifier: bypass
when the assigned list became empty, the previous mode otherwise. -/
theorem removeAcceptanceFilter_afMode_of_found (setupOk : Platform → Bool) (hw : Platform)
    (bus : CanBus) (id i : Nat) (h : findFilter bus.acceptanceFilters id = some i) :
    (removeAcceptanceFilter setupOk hw bus id).1.afMode
      = if (bus.acceptanceFilters.eraseIdx i).isEmpty then CAN_AFMODE_Type.CAN_AccBP
        else hw.afMode := by
  rw [removeAcceptanceFilter_of_found setupOk hw bus id i h]
  simp only [updateAcceptanceFilterTable_afMode]
  split <;> simp [CAN_SetAFMode]

/-- C3 (empty implies bypass). In normal mode, removing an assigned identifier
leaves the mode bypass when it was the only assigned filter (the assigned list
is then empty), and leaves the mode normal when another filter remains
assigned afterwards, which is the case whenever two or more were assigned. -/
theorem remove_last_implies_bypass (setupOk : Platform → Bool) (hw : Platform)
    (bus : CanBus) (id : Nat) (hmode : hw.afMode = CAN_AFMODE_Type.CAN_Normal)
    (hid : id ∈ assignedIds bus) :
    (bus.acceptanceFilters.length = 1 →
      (removeAcceptanceFilter setupOk hw bus id).2.acceptanceFilters = [] ∧
      (removeAcceptanceFilter setupOk hw bus id).1.afMode = CAN_AFMODE_Type.CAN_AccBP) ∧
    (2 ≤ bus.acceptanceFilters.length →
      (removeAcceptanceFilter setupOk hw bus id).2.acceptanceFilters ≠ []) ∧
    ((removeAcceptanceFilter setupOk hw bus id).2.acceptanceFilters ≠ [] →
      (removeAcceptanceFilter setupOk hw bus id).1.afMode = CAN_AFMODE_Type.CAN_Normal) := by
  obtain ⟨i, hi⟩ := findFilter_isSome_of_mem bus.acceptanceFilters id hid
  have hlt := findFilter_lt bus.acceptanceFilters id i hi
  have hmode2 := removeAcceptanceFilter_afMode_of_found setupOk hw bus id i hi
  have hbus : (removeAcceptanceFilter setupOk hw bus id).2.acceptanceFilters
      = bus.acceptanceFilters.eraseIdx i := by
    rw [removeAcceptanceFilter_of_found setupOk hw bus id i hi]
  have hlen := List.length_eraseIdx_of_lt hlt
  refine ⟨?_, ?_, ?_⟩
  · intro h1
    have hnil : bus.acceptanceFilters.eraseIdx i = [] := by
      apply List.length_eq_zero.1
      omega
    refine ⟨by rw [hbus, hnil], ?_⟩
    rw [hmode2, hnil]
    simp
  · intro h2 hnil
    rw [hbus] at hnil
    rw [hnil] at hlen
    simp at hlen
    omega
  · intro hne
    rw [hbus] at hne
    rw [hmode2]
    simp [hne, hmode]

/-- C3 witness: two filters assigned in normal mode, the first is removed. -/
theorem remove_last_implies_bypass_witness :
    ((⟨1, [⟨1, 0x20⟩, ⟨0, 0x10⟩], []⟩ : CanBus).acceptanceFilters.length = 1 →
      (removeAcceptanceFilter (fun _ => true)
        ⟨CAN_AFMODE_Type.CAN_Normal, [], ⟨[], 0⟩, []⟩
        ⟨1, [⟨1, 0x20⟩, ⟨0, 0x10⟩], []⟩ 0x10).2.acceptanceFilters = [] ∧
      (removeAcceptanceFilter (fun _ => true)
        ⟨CAN_AFMODE_Type.CAN_Normal, [], ⟨[], 0⟩, []⟩
        ⟨1, [⟨1, 0x20⟩, ⟨0, 0x10⟩], []⟩ 0x10).1.afMode = CAN_AFMODE_Type.CAN_AccBP) ∧
    (2 ≤ (⟨1, [⟨1, 0x20⟩, ⟨0, 0x10⟩], []⟩ : CanBus).acceptanceFilters.length →
      (removeAcceptanceFilter (fun _ => true)
        ⟨CAN_AFMODE_Type.CAN_Normal, [], ⟨[], 0⟩, []⟩
        ⟨1, [⟨1, 0x20⟩, ⟨0, 0x10⟩], []⟩ 0x10).2.acceptanceFilters ≠ []) ∧
    ((removeAcceptanceFilter (fun _ => true)
        ⟨CAN_AFMODE_Type.CAN_Normal, [], ⟨[], 0⟩, []⟩
        ⟨1, [⟨1, 0x20⟩, ⟨0, 0x10⟩], []⟩ 0x10).2.acceptanceFilters ≠ [] →
      (removeAcceptanceFilter (fun _ => true)
        ⟨CAN_AFMODE_Type.CAN_Normal, [], ⟨[], 0⟩, []⟩
        ⟨1, [⟨1, 0x20⟩, ⟨0, 0x10⟩], []⟩ 0x10).1.afMode = CAN_AFMODE_Type.CAN_Normal) :=
  remove_last_implies_bypass (fun _ => true) ⟨CAN_AFMODE_Type.CAN_Normal, [], ⟨[], 0⟩, []⟩
    ⟨1, [⟨1, 0x20⟩, ⟨0, 0x10⟩], []⟩ 0x10 rfl (by decide)

/-- C4 (first add implies normal). From bypass mode with an empty assigned list
and at least one free slot, a single `addAcceptanceFilter(bus, id)` moves the
mode away from bypass to normal and leaves `id` as the one assigned identifier,
whatever the driver answered; in particular a call that returns `true` leaves
the mode normal and the identifier assigned. -/
theorem first_add_implies_normal (setupOk : Platform → Bool) (hw : Platform)
    (bus : CanBus) (id : Nat) (hmode : hw.afMode = CAN_AFMODE_Type.CAN_AccBP)
    (hempty : bus.acceptanceFilters = []) (hfree : bus.freeAcceptanceFilters ≠ []) :
    (addAcceptanceFilter setupOk hw bus id).2.1.afMode = CAN_AFMODE_Type.CAN_Normal ∧
    (addAcceptanceFilter setupOk hw bus id).2.1.afMode ≠ hw.afMode ∧
    assignedIds (addAcceptanceFilter setupOk hw bus id).2.2 = [id] ∧
    ((addAcceptanceFilter setupOk hw bus id).1 = true →
      (addAcceptanceFilter setupOk hw bus id).2.1.afMode = CAN_AFMODE_Type.CAN_Normal ∧
      id ∈ assignedIds (addAcceptanceFilter setupOk hw bus id).2.2) := by
  obtain ⟨e, rest, hf⟩ : ∃ e rest, bus.freeAcceptanceFilters = e :: rest := by
    cases hf : bus.freeAcceptanceFilters with
    | nil => exact absurd hf hfree
    | cons e rest => exact ⟨e, rest, rfl⟩
  have hnew : id ∉ assignedIds bus := by simp [assignedIds, hempty]
  have h1 := addAcceptanceFilter_of_free setupOk hw bus id e rest hnew hf
  have hm : (addAcceptanceFilter setupOk hw bus id).2.1.afMode
      = CAN_AFMODE_Type.CAN_Normal := by
    rw [h1]
    simp [updateAcceptanceFilterTable_afMode, CAN_SetAFMode]
  have ha : assignedIds (addAcceptanceFilter setupOk hw bus id).2.2 = [id] := by
    rw [h1]
    simp [assignedIds, hempty]
  refine ⟨hm, ?_, ha, fun _ => ⟨hm, ?_⟩⟩
  · rw [hm, hmode]
    decide
  · rw [ha]
    simp

/-- C4 witness: the first add on a fresh bus with six free slots. -/
theorem first_add_implies_normal_witness :
    (initialPlatform 6).afMode = CAN_AFMODE_Type.CAN_AccBP ∧
    (addAcceptanceFilter (fun _ => true) (initialPlatform 6) (initialBus 1 6)
      0x10).2.1.afMode = CAN_AFMODE_Type.CAN_Normal ∧
    (addAcceptanceFilter (fun _ => true) (initialPlatform 6) (initialBus 1 6)
      0x10).2.1.afMode ≠ (initialPlatform 6).afMode ∧
    assignedIds (addAcceptanceFilter (fun _ => true) (initialPlatform 6) (initialBus 1 6)
      0x10).2.2 = [0x10] ∧
    ((addAcceptanceFilter (fun _ => true) (initialPlatform 6) (initialBus 1 6) 0x10).1 = true →
      (addAcceptanceFilter (fun _ => true) (initialPlatform 6) (initialBus 1 6)
        0x10).2.1.afMode = CAN_AFMODE_Type.CAN_Normal ∧
      0x10 ∈ assignedIds (addAcceptanceFilter (fun _ => true) (initialPlatform 6)
        (initialBus 1 6) 0x10).2.2) :=
  ⟨rfl, first_add_implies_normal (fun _ => true) (initialPlatform 6) (initialBus 1 6) 0x10
    rfl rfl (by decide)⟩

/-! ## Round trip and slot conservation -/

/-- No path of `removeAcceptanceFilter` touches the free list: the entry it
unlinks from the assigned list is not linked into `freeAcceptanceFilters`. -/
theorem removeAcceptanceFilter_freeAcceptanceFilters (setupOk : Platform → Bool)
    (hw : Platform) (bus : CanBus) (id : Nat) :
    (removeAcceptanceFilter setupOk hw bus id).2.freeAcceptanceFilters
      = bus.freeAcceptanceFilters := by
  cases h : findFilter bus.acceptanceFilters id with
  | none => simp [removeAcceptanceFilter, h]
  | some i => rw [removeAcceptanceFilter_of_found setupOk hw bus id i h]

/-- C5 (round trip), evaluated on the code. On a fresh bus with six free slots in
bypass mode, `addAcceptanceFilter(bus, 0x100)` followed by
`removeAcceptanceFilter(bus, 0x100)` restores the assigned count (zero) and the
bypass mode, but the free list holds five entries instead of six: the entry
taken by the add (slot 0) is unlinked from the assigned list and linked into no
list. -/
theorem add_then_remove_loses_free_slot :
    (initialBus 1 6).freeAcceptanceFilters.length = 6 ∧
    (removeAcceptanceFilter (fun _ => true)
        (addAcceptanceFilter (fun _ => true) (initialPlatform 6) (initialBus 1 6) 0x100).2.1
        (addAcceptanceFilter (fun _ => true) (initialPlatform 6) (initialBus 1 6) 0x100).2.2
        0x100).2.freeAcceptanceFilters.length = 5 ∧
    (removeAcceptanceFilter (fun _ => true)
        (addAcceptanceFilter (fun _ => true) (initialPlatform 6) (initialBus 1 6) 0x100).2.1
        (addAcceptanceFilter (fun _ => true) (initialPlatform 6) (initialBus 1 6) 0x100).2.2
        0x100).2.freeAcceptanceFilters.map (fun e => e.slot) = [1, 2, 3, 4, 5] ∧
    (removeAcceptanceFilter (fun _ => true)
        (addAcceptanceFilter (fun _ => true) (initialPlatform 6) (initialBus 1 6) 0x100).2.1
        (addAcceptanceFilter (fun _ => true) (initialPlatform 6) (initialBus 1 6) 0x100).2.2
        0x100).2.acceptanceFilters = [] ∧
    (removeAcceptanceFilter (fun _ => true)
        (addAcceptanceFilter (fun _ => true) (initialPlatform 6) (initialBus 1 6) 0x100).2.1
        (addAcceptanceFilter (fun _ => true) (initialPlatform 6) (initialBus 1 6) 0x100).2.2
        0x100).1.afMode = CAN_AFMODE_Type.CAN_AccBP := by
  decide

/-- C6 (slot conservation), evaluated on the code. From the initial state with
`MAX_SLOTS = 6` (assigned list empty, six free entries), the sequence
add `0x100`, remove `0x100` reaches a state with `|free| + |assigned| = 5`:
slot 0 is in neither list. -/
theorem slot_conservation_broken_by_remove :
    (initialBus 1 6).freeAcceptanceFilters.length
      + (initialBus 1 6).acceptanceFilters.length = 6 ∧
    (runOps (fun _ => true) (initialPlatform 6, initialBus 1 6)
        [FilterOp.add 0x100, FilterOp.remove 0x100]).2.freeAcceptanceFilters.length
      + (runOps (fun _ => true) (initialPlatform 6, initialBus 1 6)
        [FilterOp.add 0x100, FilterOp.remove 0x100]).2.acceptanceFilters.length = 5 ∧
    0 ∉ ((runOps (fun _ => true) (initialPlatform 6, initialBus 1 6)
        [FilterOp.add 0x100, FilterOp.remove 0x100]).2.freeAcceptanceFilters
      ++ (runOps (fun _ => true) (initialPlatform 6, initialBus 1 6)
        [FilterOp.add 0x100, FilterOp.remove 0x100]).2.acceptanceFilters).map
          (fun e => e.slot) := by
  decide

/-! ## Failure paths -/

/-- C7 as stated fails: a full bus (six assigned filters, no free entry) in
bypass mode receives `addAcceptanceFilter(bus, 0x70)`. The call returns `false`
and leaves both lists alone, but the receive mode is normal afterwards. -/
theorem failed_add_switches_mode_counterexample :
    0x70 ∉ assignedIds
      ⟨1, [⟨5, 0x60⟩, ⟨4, 0x50⟩, ⟨3, 0x40⟩, ⟨2, 0x30⟩, ⟨1, 0x20⟩, ⟨0, 0x10⟩], []⟩ ∧
    (initialPlatform 6).afMode = CAN_AFMODE_Type.CAN_AccBP ∧
    (addAcceptanceFilter (fun _ => true) (initialPlatform 6)
      ⟨1, [⟨5, 0x60⟩, ⟨4, 0x50⟩, ⟨3, 0x40⟩, ⟨2, 0x30⟩, ⟨1, 0x20⟩, ⟨0, 0x10⟩], []⟩ 0x70).1
        = false ∧
    (addAcceptanceFilter (fun _ => true) (initialPlatform 6)
      ⟨1, [⟨5, 0x60⟩, ⟨4, 0x50⟩, ⟨3, 0x40⟩, ⟨2, 0x30⟩, ⟨1, 0x20⟩, ⟨0, 0x10⟩], []⟩ 0x70).2.2
        = ⟨1, [⟨5, 0x60⟩, ⟨4, 0x50⟩, ⟨3, 0x40⟩, ⟨2, 0x30⟩, ⟨1, 0x20⟩, ⟨0, 0x10⟩], []⟩ ∧
    (addAcceptanceFilter (fun _ => true) (initialPlatform 6)
      ⟨1, [⟨5, 0x60⟩, ⟨4, 0x50⟩, ⟨3, 0x40⟩, ⟨2, 0x30⟩, ⟨1, 0x20⟩, ⟨0, 0x10⟩], []⟩ 0x70).2.1.afMode
        ≠ CAN_AFMODE_Type.CAN_AccBP := by
  decide

/-- C7 as amended. When `id` is not assigned and the free list is empty,
`addAcceptanceFilter(bus, id)` returns `false`, leaves the assigned list and the
free list unchanged and neither rebuilds nor applies a table; its only effect
is the request for normal mode made on entry, so the receive mode is normal
after the call whatever it was before. -/
theorem failed_add_keeps_lists_sets_normal (setupOk : Platform → Bool) (hw : Platform)
    (bus : CanBus) (id : Nat) (hnew : id ∉ assignedIds bus)
    (hfree : bus.freeAcceptanceFilters = []) :
    (addAcceptanceFilter setupOk hw bus id).1 = false ∧
    (addAcceptanceFilter setupOk hw bus id).2.2.acceptanceFilters = bus.acceptanceFilters ∧
    (addAcceptanceFilter setupOk hw bus id).2.2.freeAcceptanceFilters
      = bus.freeAcceptanceFilters ∧
    (addAcceptanceFilter setupOk hw bus id).2.1.afMode = CAN_AFMODE_Type.CAN_Normal ∧
    (addAcceptanceFilter setupOk hw bus id).2.1.STANDARD_AF_TABLE = hw.STANDARD_AF_TABLE ∧
    (addAcceptanceFilter setupOk hw bus id).2.1.AF_TABLE = hw.AF_TABLE ∧
    (addAcceptanceFilter setupOk hw bus id).2.1.calls
      = hw.calls ++ [DriverCall.SetAFMode CAN_AFMODE_Type.CAN_Normal] := by
  rw [addAcceptanceFilter_of_exhausted setupOk hw bus id hnew hfree]
  simp [CAN_SetAFMode]

/-- C7 witness: the full bus in bypass mode, identifier `0x70`. -/
theorem failed_add_keeps_lists_sets_normal_witness :
    (addAcceptanceFilter (fun _ => true) (initialPlatform 6)
      ⟨1, [⟨5, 0x60⟩, ⟨4, 0x50⟩, ⟨3, 0x40⟩, ⟨2, 0x30⟩, ⟨1, 0x20⟩, ⟨0, 0x10⟩], []⟩ 0x70).1
        = false ∧
    (addAcceptanceFilter (fun _ => true) (initialPlatform 6)
      ⟨1, [⟨5, 0x60⟩, ⟨4, 0x50⟩, ⟨3, 0x40⟩, ⟨2, 0x30⟩, ⟨1, 0x20⟩, ⟨0, 0x10⟩], []⟩
        0x70).2.1.afMode = CAN_AFMODE_Type.CAN_Normal :=
  have h := failed_add_keeps_lists_sets_normal (fun _ => true) (initialPlatform 6)
    ⟨1, [⟨5, 0x60⟩, ⟨4, 0x50⟩, ⟨3, 0x40⟩, ⟨2, 0x30⟩, ⟨1, 0x20⟩, ⟨0, 0x10⟩], []⟩ 0x70
    (by decide) rfl
  ⟨h.1, h.2.2.2.1⟩

/-- C8 (idempotent removal). When `id` is not in the assigned list,
`removeAcceptanceFilter(bus, id)` changes nothing: the bus (assigned list and
free list) and the whole platform state (receive mode, table globals, driver
calls) are as before, so no mode is set and no table is rebuilt or applied. -/
theorem remove_unknown_is_noop (setupOk : Platform → Bool) (hw : Platform)
    (bus : CanBus) (id : Nat) (hnew : id ∉ assignedIds bus) :
    removeAcceptanceFilter setupOk hw bus id = (hw, bus) ∧
    countSetupAFLUT (removeAcceptanceFilter setupOk hw bus id).1.calls
      = countSetupAFLUT hw.calls := by
  have hn := (findFilter_eq_none_iff bus.acceptanceFilters id).2 hnew
  simp [removeAcceptanceFilter, hn]

/-- C8 witness: identifier `0x30` removed from a bus holding `0x20` and `0x10`. -/
theorem remove_unknown_is_noop_witness :
    removeAcceptanceFilter (fun _ => true) (initialPlatform 6)
        ⟨1, [⟨1, 0x20⟩, ⟨0, 0x10⟩], [⟨2, 0⟩]⟩ 0x30
      = (initialPlatform 6, ⟨1, [⟨1, 0x20⟩, ⟨0, 0x10⟩], [⟨2, 0⟩]⟩) ∧
    countSetupAFLUT (removeAcceptanceFilter (fun _ => true) (initialPlatform 6)
        ⟨1, [⟨1, 0x20⟩, ⟨0, 0x10⟩], [⟨2, 0⟩]⟩ 0x30).1.calls
      = countSetupAFLUT (initialPlatform 6).calls :=
  remove_unknown_is_noop (fun _ => true) (initialPlatform 6)
    ⟨1, [⟨1, 0x20⟩, ⟨0, 0x10⟩], [⟨2, 0⟩]⟩ 0x30 (by decide)

/-! ## Allocation and the filter table -/

/-- C9 (allocation path, no rollback). When `id` is not assigned and the free
list is `e :: rest`, `addAcceptanceFilter(bus, id)` moves the entry `e` from the
free list to the head of the assigned list with identifier `id` (assigned count
plus one, free count minus one, `id` assigned), requests normal mode, rebuilds
the table and applies it once, and returns exactly the driver's answer to that
apply. When the answer is a failure the call returns `false` and `id` is
assigned all the same. -/
theorem add_allocates_and_returns_apply_result (setupOk : Platform → Bool) (hw : Platform)
    (bus : CanBus) (id : Nat) (e : AcceptanceFilterListEntry)
    (rest : List AcceptanceFilterListEntry) (hnew : id ∉ assignedIds bus)
    (hfree : bus.freeAcceptanceFilters = e :: rest) :
    (addAcceptanceFilter setupOk hw bus id).2.2.acceptanceFilters
      = { e with filter := id } :: bus.acceptanceFilters ∧
    (addAcceptanceFilter setupOk hw bus id).2.2.freeAcceptanceFilters = rest ∧
    (addAcceptanceFilter setupOk hw bus id).2.2.acceptanceFilters.length
      = bus.acceptanceFilters.length + 1 ∧
    (addAcceptanceFilter setupOk hw bus id).2.2.freeAcceptanceFilters.length + 1
      = bus.freeAcceptanceFilters.length ∧
    id ∈ assignedIds (addAcceptanceFilter setupOk hw bus id).2.2 ∧
    (addAcceptanceFilter setupOk hw bus id).2.1.calls
      = hw.calls ++ [DriverCall.SetAFMode CAN_AFMODE_Type.CAN_Normal,
          DriverCall.SetupAFLUT (addAcceptanceFilter setupOk hw bus id).2.1.AF_TABLE] ∧
    (addAcceptanceFilter setupOk hw bus id).1
      = setupOk { (addAcceptanceFilter setupOk hw bus id).2.1 with
          calls := hw.calls ++ [DriverCall.SetAFMode CAN_AFMODE_Type.CAN_Normal] } ∧
    ((addAcceptanceFilter setupOk hw bus id).1 = false →
      id ∈ assignedIds (addAcceptanceFilter setupOk hw bus id).2.2) := by
  rw [addAcceptanceFilter_of_free setupOk hw bus id e rest hnew hfree]
  simp [assignedIds, hfree, updateAcceptanceFilterTable, CAN_SetupAFLUT, CAN_SetAFMode]

/-- C9 witness: the driver rejects every table; `0x100` is added to a fresh bus. -/
theorem add_allocates_and_returns_apply_result_witness :
    (addAcceptanceFilter (fun _ => false) (initialPlatform 6) (initialBus 1 6) 0x100).1
      = false ∧
    (addAcceptanceFilter (fun _ => false) (initialPlatform 6) (initialBus 1 6)
      0x100).2.2.acceptanceFilters = [⟨0, 0x100⟩] ∧
    (addAcceptanceFilter (fun _ => false) (initialPlatform 6) (initialBus 1 6)
      0x100).2.2.freeAcceptanceFilters = [⟨1, 0⟩, ⟨2, 0⟩, ⟨3, 0⟩, ⟨4, 0⟩, ⟨5, 0⟩] :=
  have h := add_allocates_and_returns_apply_result (fun _ => false) (initialPlatform 6)
    (initialBus 1 6) 0x100 ⟨0, 0⟩ [⟨1, 0⟩, ⟨2, 0⟩, ⟨3, 0⟩, ⟨4, 0⟩, ⟨5, 0⟩] (by decide) rfl
  ⟨h.2.2.2.2.2.2.1, h.1, h.2.1⟩

/-- C10 (filter table content), evaluated on the code. With the single filter
`0x100` assigned on bus 1, the table that `updateAcceptanceFilterTable` hands to
the driver announces six entries instead of one, carries no entry for `0x100`,
and its first entry is enabled with identifier `0x08`, which is not assigned. -/
theorem filter_table_ignores_assignments :
    assignedIds ⟨1, [⟨0, 0x100⟩], [⟨1, 0⟩, ⟨2, 0⟩, ⟨3, 0⟩, ⟨4, 0⟩, ⟨5, 0⟩]⟩ = [0x100] ∧
    (updateAcceptanceFilterTable (fun _ => true) (initialPlatform 6)
      ⟨1, [⟨0, 0x100⟩], [⟨1, 0⟩, ⟨2, 0⟩, ⟨3, 0⟩, ⟨4, 0⟩, ⟨5, 0⟩]⟩).2.AF_TABLE.SFF_NumEntry = 6 ∧
    (updateAcceptanceFilterTable (fun _ => true) (initialPlatform 6)
      ⟨1, [⟨0, 0x100⟩], [⟨1, 0⟩, ⟨2, 0⟩, ⟨3, 0⟩, ⟨4, 0⟩, ⟨5, 0⟩]⟩).2.AF_TABLE.SFF_Sec
        = [⟨0, false, 0x08⟩, ⟨0, false, 0⟩, ⟨0, false, 0⟩, ⟨0, false, 0⟩, ⟨0, false, 0⟩,
           ⟨0, false, 0⟩] ∧
    0x100 ∉ (updateAcceptanceFilterTable (fun _ => true) (initialPlatform 6)
      ⟨1, [⟨0, 0x100⟩], [⟨1, 0⟩, ⟨2, 0⟩, ⟨3, 0⟩, ⟨4, 0⟩, ⟨5, 0⟩]⟩).2.AF_TABLE.SFF_Sec.map
        (fun t => t.id_11) ∧
    (updateAcceptanceFilterTable (fun _ => true) (initialPlatform 6)
      ⟨1, [⟨0, 0x100⟩], [⟨1, 0⟩, ⟨2, 0⟩, ⟨3, 0⟩, ⟨4, 0⟩, ⟨5, 0⟩]⟩).2.calls
        = [DriverCall.SetupAFLUT
            ⟨[⟨0, false, 0x08⟩, ⟨0, false, 0⟩, ⟨0, false, 0⟩, ⟨0, false, 0⟩, ⟨0, false, 0⟩,
              ⟨0, false, 0⟩], 6⟩] := by
  decide

/-! ## Assigned identifiers and receive mode across the operations -/

theorem eraseIdx_findFilter (l : List AcceptanceFilterListEntry) (id i : Nat)
    (h : findFilter l id = some i) :
    (l.eraseIdx i).map (fun e => e.filter) = (l.map (fun e => e.filter)).erase id := by
  induction l generalizing i with
  | nil => simp [findFilter] at h
  | cons e rest ih =>
    by_cases he : e.filter = id
    · simp [findFilter, he] at h
      subst h
      simp [he]
    · cases hr : findFilter rest id with
      | none => simp [findFilter, he, hr] at h
      | some j =>
        simp [findFilter, he, hr] at h
        subst h
        have hne : ¬ (e.filter == id) = true := by simpa using he
        simp [List.erase_cons, hne, ih j hr]

/-- The assigned identifiers after `removeAcceptanceFilter`: the first occurrence
of `id` is dropped, the rest keeps its order. -/
theorem assignedIds_removeAcceptanceFilter (setupOk : Platform → Bool) (hw : Platform)
    (bus : CanBus) (id : Nat) :
    assignedIds (removeAcceptanceFilter setupOk hw bus id).2 = (assignedIds bus).erase id := by
  cases h : findFilter bus.acceptanceFilters id with
  | none =>
    have hn := (findFilter_eq_none_iff bus.acceptanceFilters id).1 h
    simp only [removeAcceptanceFilter, h]
    exact (List.erase_of_not_mem hn).symm
  | some i =>
    rw [removeAcceptanceFilter_of_found setupOk hw bus id i h]
    exact eraseIdx_findFilter bus.acceptanceFilters id i h

/-- The receive mode after `removeAcceptanceFilter`: bypass when `id` was found
and nothing remains assigned, the previous mode otherwise. -/
theorem removeAcceptanceFilter_afMode (setupOk : Platform → Bool) (hw : Platform)
    (bus : CanBus) (id : Nat) :
    (removeAcceptanceFilter setupOk hw bus id).1.afMode
      = if id ∈ assignedIds bus ∧ (assignedIds bus).erase id = [] then
          CAN_AFMODE_Type.CAN_AccBP
        else hw.afMode := by
  cases h : findFilter bus.acceptanceFilters id with
  | none =>
    have hn := (findFilter_eq_none_iff bus.acceptanceFilters id).1 h
    have hn2 : id ∉ assignedIds bus := hn
    simp [removeAcceptanceFilter, h, hn2]
  | some i =>
    have hin : id ∈ assignedIds bus := by
      by_contra hc
      have := (findFilter_eq_none_iff bus.acceptanceFilters id).2 hc
      rw [h] at this
      exact Option.noConfusion this
    rw [removeAcceptanceFilter_afMode_of_found setupOk hw bus id i h]
    have he := eraseIdx_findFilter bus.acceptanceFilters id i h
    have hiff : (bus.acceptanceFilters.eraseIdx i).isEmpty = true
        ↔ (assignedIds bus).erase id = [] := by
      unfold assignedIds
      rw [← he]
      simp
    by_cases hemp : (bus.acceptanceFilters.eraseIdx i).isEmpty = true
    · simp [hemp, hin, hiff.1 hemp]
    · have hne : ¬ (assignedIds bus).erase id = [] := fun hc => hemp (hiff.2 hc)
      simp [hemp, hne]

/-- Every path of `addAcceptanceFilter` leaves the receive mode normal. -/
theorem addAcceptanceFilter_afMode (setupOk : Platform → Bool) (hw : Platform)
    (bus : CanBus) (id : Nat) :
    (addAcceptanceFilter setupOk hw bus id).2.1.afMode = CAN_AFMODE_Type.CAN_Normal := by
  by_cases hin : id ∈ assignedIds bus
  · rw [addAcceptanceFilter_of_assigned setupOk hw bus id hin]
    simp [CAN_SetAFMode]
  · cases hf : bus.freeAcceptanceFilters with
    | nil =>
      rw [addAcceptanceFilter_of_exhausted setupOk hw bus id hin hf]
      simp [CAN_SetAFMode]
    | cons e rest =>
      rw [addAcceptanceFilter_of_free setupOk hw bus id e rest hin hf]
      simp [updateAcceptanceFilterTable_afMode, CAN_SetAFMode]

/-- The observations made by `removeAcceptanceFilters` depend on the receive mode
and the assigned identifiers only. -/
theorem removeAcceptanceFilters_trace (setupOk : Platform → Bool) (ids : List Nat) :
    ∀ (hw : Platform) (bus : CanBus),
      (removeAcceptanceFilters setupOk hw bus ids).1
        = removalTrace hw.afMode (assignedIds bus) ids := by
  induction ids with
  | nil => intro hw bus; rfl
  | cons id ids ih =>
    intro hw bus
    have hlen : (removeAcceptanceFilter setupOk hw bus id).2.acceptanceFilters.length
        = ((assignedIds bus).erase id).length := by
      rw [← assignedIds_removeAcceptanceFilter setupOk hw bus id]
      simp [assignedIds]
    simp only [removeAcceptanceFilters, removalTrace]
    rw [ih, assignedIds_removeAcceptanceFilter, removeAcceptanceFilter_afMode, hlen]

/-! ## Mode and emptiness -/

/-- The part of the mode invariant that every operation preserves: bypass mode
implies an empty assigned list, and normal mode with an empty assigned list
implies an empty free list. -/
theorem applyOp_mode_invariant (setupOk : Platform → Bool) (s : Platform × CanBus)
    (op : FilterOp)
    (h1 : s.1.afMode = CAN_AFMODE_Type.CAN_AccBP → s.2.acceptanceFilters = [])
    (h2 : s.1.afMode = CAN_AFMODE_Type.CAN_Normal → s.2.acceptanceFilters = [] →
      s.2.freeAcceptanceFilters = []) :
    ((applyOp setupOk s op).1.afMode = CAN_AFMODE_Type.CAN_AccBP →
      (applyOp setupOk s op).2.acceptanceFilters = []) ∧
    ((applyOp setupOk s op).1.afMode = CAN_AFMODE_Type.CAN_Normal →
      (applyOp setupOk s op).2.acceptanceFilters = [] →
      (applyOp setupOk s op).2.freeAcceptanceFilters = []) := by
  cases op with
  | add id =>
    have hm := addAcceptanceFilter_afMode setupOk s.1 s.2 id
    refine ⟨?_, ?_⟩
    · intro hb
      simp only [applyOp] at hb
      rw [hm] at hb
      exact absurd hb (by decide)
    · intro _ hemp
      simp only [applyOp] at hemp ⊢
      by_cases hin : id ∈ assignedIds s.2
      · rw [addAcceptanceFilter_of_assigned setupOk s.1 s.2 id hin] at hemp
        simp only at hemp
        simp [assignedIds, hemp] at hin
      · cases hf : s.2.freeAcceptanceFilters with
        | nil =>
          rw [addAcceptanceFilter_of_exhausted setupOk s.1 s.2 id hin hf]
          exact hf
        | cons e rest =>
          rw [addAcceptanceFilter_of_free setupOk s.1 s.2 id e rest hin hf] at hemp
          simp at hemp
  | remove id =>
    have hm := removeAcceptanceFilter_afMode setupOk s.1 s.2 id
    have ha := assignedIds_removeAcceptanceFilter setupOk s.1 s.2 id
    have hfree := removeAcceptanceFilter_freeAcceptanceFilters setupOk s.1 s.2 id
    simp only [applyOp]
    by_cases hc : id ∈ assignedIds s.2 ∧ (assignedIds s.2).erase id = []
    · rw [if_pos hc] at hm
      refine ⟨?_, ?_⟩
      · intro _
        have : assignedIds (removeAcceptanceFilter setupOk s.1 s.2 id).2 = [] := by
          rw [ha]; exact hc.2
        simpa [assignedIds] using this
      · intro hn
        rw [hm] at hn
        exact absurd hn (by decide)
    · rw [if_neg hc] at hm
      by_cases hin : id ∈ assignedIds s.2
      · have hne : s.2.acceptanceFilters ≠ [] := by
          intro h0
          simp [assignedIds, h0] at hin
        refine ⟨?_, ?_⟩
        · intro hb
          rw [hm] at hb
          exact absurd (h1 hb) hne
        · intro _ hemp
          have : assignedIds (removeAcceptanceFilter setupOk s.1 s.2 id).2 = [] := by
            simp [assignedIds, hemp]
          rw [ha] at this
          exact absurd ⟨hin, this⟩ hc
      · have hnoop : removeAcceptanceFilter setupOk s.1 s.2 id = (s.1, s.2) := by
          have hn := (findFilter_eq_none_iff s.2.acceptanceFilters id).2 hin
          simp [removeAcceptanceFilter, hn]
        rw [hnoop]
        exact ⟨h1, h2⟩

/-- In every state reached from bypass mode with an empty assigned list, bypass
mode implies an empty assigned list, and normal mode with an empty assigned
list occurs only when the free list is empty as well. -/
theorem runOps_mode_invariant (setupOk : Platform → Bool) (ops : List FilterOp) :
    ∀ (s : Platform × CanBus),
      (s.1.afMode = CAN_AFMODE_Type.CAN_AccBP → s.2.acceptanceFilters = []) →
      (s.1.afMode = CAN_AFMODE_Type.CAN_Normal → s.2.acceptanceFilters = [] →
        s.2.freeAcceptanceFilters = []) →
      ((runOps setupOk s ops).1.afMode = CAN_AFMODE_Type.CAN_AccBP →
        (runOps setupOk s ops).2.acceptanceFilters = []) ∧
      ((runOps setupOk s ops).1.afMode = CAN_AFMODE_Type.CAN_Normal →
        (runOps setupOk s ops).2.acceptanceFilters = [] →
        (runOps setupOk s ops).2.freeAcceptanceFilters = []) := by
  induction ops with
  | nil => intro s h1 h2; exact ⟨h1, h2⟩
  | cons op ops ih =>
    intro s h1 h2
    have hstep := applyOp_mode_invariant setupOk s op h1 h2
    simpa [runOps] using ih (applyOp setupOk s op) hstep.1 hstep.2

/-- C11 (mode and emptiness), evaluated on the code. From the initial state with
six free slots in bypass mode, six add/remove pairs use up the free list (every
removal drops its entry instead of freeing it); the following
`addAcceptanceFilter(bus, 0x70)` finds no free entry, and the state reached is
in normal mode with an empty assigned list. -/
theorem normal_mode_with_no_filter_reachable :
    (initialPlatform 6).afMode = CAN_AFMODE_Type.CAN_AccBP ∧
    (initialBus 1 6).acceptanceFilters = [] ∧
    (initialBus 1 6).freeAcceptanceFilters.length = 6 ∧
    (runOps (fun _ => true) (initialPlatform 6, initialBus 1 6)
      [FilterOp.add 0x10, FilterOp.remove 0x10, FilterOp.add 0x20, FilterOp.remove 0x20,
       FilterOp.add 0x30, FilterOp.remove 0x30, FilterOp.add 0x40, FilterOp.remove 0x40,
       FilterOp.add 0x50, FilterOp.remove 0x50, FilterOp.add 0x60, FilterOp.remove 0x60,
       FilterOp.add 0x70]).1.afMode = CAN_AFMODE_Type.CAN_Normal ∧
    (runOps (fun _ => true) (initialPlatform 6, initialBus 1 6)
      [FilterOp.add 0x10, FilterOp.remove 0x10, FilterOp.add 0x20, FilterOp.remove 0x20,
       FilterOp.add 0x30, FilterOp.remove 0x30, FilterOp.add 0x40, FilterOp.remove 0x40,
       FilterOp.add 0x50, FilterOp.remove 0x50, FilterOp.add 0x60, FilterOp.remove 0x60,
       FilterOp.add 0x70]).2.acceptanceFilters = [] ∧
    (runOps (fun _ => true) (initialPlatform 6, initialBus 1 6)
      [FilterOp.add 0x10, FilterOp.remove 0x10, FilterOp.add 0x20, FilterOp.remove 0x20,
       FilterOp.add 0x30, FilterOp.remove 0x30, FilterOp.add 0x40, FilterOp.remove 0x40,
       FilterOp.add 0x50, FilterOp.remove 0x50, FilterOp.add 0x60, FilterOp.remove 0x60,
       FilterOp.add 0x70]).2.freeAcceptanceFilters = [] := by
  decide

/-! ## The six-filter scenario -/

/-- C12 (scenario). With capacity 6, an empty assigned list and bypass mode, the
driver accepting every table: adding `0x10, 0x20, 0x30, 0x40, 0x50, 0x60` in
order returns `true` six times, the mode is normal after the first add and the
assigned count is 6; adding `0x70` then returns `false` with the assigned count
still 6; removing `0x10` to `0x60` one at a time leaves the mode normal after
each of the first five removals (assigned counts 5 down to 1), and after the
removal of `0x60` the mode is bypass and the assigned count is 0. -/
theorem scenario_six_filters (setupOk : Platform → Bool) (hw : Platform) (bus : CanBus)
    (hok : ∀ p, setupOk p = true) (hmode : hw.afMode = CAN_AFMODE_Type.CAN_AccBP)
    (hempty : bus.acceptanceFilters = []) (hcap : bus.freeAcceptanceFilters.length = 6) :
    (addAcceptanceFilters setupOk hw bus [0x10, 0x20, 0x30, 0x40, 0x50, 0x60]).1
      = [true, true, true, true, true, true] ∧
    (addAcceptanceFilter setupOk hw bus 0x10).2.1.afMode = CAN_AFMODE_Type.CAN_Normal ∧
    (addAcceptanceFilter setupOk hw bus 0x10).2.1.afMode ≠ hw.afMode ∧
    (addAcceptanceFilters setupOk hw bus
      [0x10, 0x20, 0x30, 0x40, 0x50, 0x60]).2.2.acceptanceFilters.length = 6 ∧
    (addAcceptanceFilter setupOk
      (addAcceptanceFilters setupOk hw bus [0x10, 0x20, 0x30, 0x40, 0x50, 0x60]).2.1
      (addAcceptanceFilters setupOk hw bus [0x10, 0x20, 0x30, 0x40, 0x50, 0x60]).2.2
      0x70).1 = false ∧
    (addAcceptanceFilter setupOk
      (addAcceptanceFilters setupOk hw bus [0x10, 0x20, 0x30, 0x40, 0x50, 0x60]).2.1
      (addAcceptanceFilters setupOk hw bus [0x10, 0x20, 0x30, 0x40, 0x50, 0x60]).2.2
      0x70).2.2.acceptanceFilters.length = 6 ∧
    (removeAcceptanceFilters setupOk
      (addAcceptanceFilter setupOk
        (addAcceptanceFilters setupOk hw bus [0x10, 0x20, 0x30, 0x40, 0x50, 0x60]).2.1
        (addAcceptanceFilters setupOk hw bus [0x10, 0x20, 0x30, 0x40, 0x50, 0x60]).2.2
        0x70).2.1
      (addAcceptanceFilter setupOk
        (addAcceptanceFilters setupOk hw bus [0x10, 0x20, 0x30, 0x40, 0x50, 0x60]).2.1
        (addAcceptanceFilters setupOk hw bus [0x10, 0x20, 0x30, 0x40, 0x50, 0x60]).2.2
        0x70).2.2
      [0x10, 0x20, 0x30, 0x40, 0x50, 0x60]).1
      = [(CAN_AFMODE_Type.CAN_Normal, 5), (CAN_AFMODE_Type.CAN_Normal, 4),
         (CAN_AFMODE_Type.CAN_Normal, 3), (CAN_AFMODE_Type.CAN_Normal, 2),
         (CAN_AFMODE_Type.CAN_Normal, 1), (CAN_AFMODE_Type.CAN_AccBP, 0)] := by
  have hnew : ∀ i ∈ [0x10, 0x20, 0x30, 0x40, 0x50, 0x60], i ∉ assignedIds bus := by
    intro i _
    simp [assignedIds, hempty]
  obtain ⟨h1, h2, h3⟩ := addAcceptanceFilters_distinct setupOk
    [0x10, 0x20, 0x30, 0x40, 0x50, 0x60] hw bus (by decide) hnew (by simp [hcap])
  have hassigned : assignedIds (addAcceptanceFilters setupOk hw bus
      [0x10, 0x20, 0x30, 0x40, 0x50, 0x60]).2.2 = [0x60, 0x50, 0x40, 0x30, 0x20, 0x10] := by
    rw [h1]
    simp [assignedIds, hempty]
  have hcount : (addAcceptanceFilters setupOk hw bus
      [0x10, 0x20, 0x30, 0x40, 0x50, 0x60]).2.2.acceptanceFilters.length = 6 := by
    have := congrArg List.length hassigned
    simpa [assignedIds] using this
  have hnofree : (addAcceptanceFilters setupOk hw bus
      [0x10, 0x20, 0x30, 0x40, 0x50, 0x60]).2.2.freeAcceptanceFilters = [] := by
    rw [h2]
    exact List.drop_eq_nil_of_le (by simp [hcap])
  have hid : 0x70 ∉ assignedIds (addAcceptanceFilters setupOk hw bus
      [0x10, 0x20, 0x30, 0x40, 0x50, 0x60]).2.2 := by
    rw [hassigned]
    decide
  have hlast := addAcceptanceFilter_of_exhausted setupOk
    (addAcceptanceFilters setupOk hw bus [0x10, 0x20, 0x30, 0x40, 0x50, 0x60]).2.1
    (addAcceptanceFilters setupOk hw bus [0x10, 0x20, 0x30, 0x40, 0x50, 0x60]).2.2
    0x70 hid hnofree
  have hfirst := addAcceptanceFilter_afMode setupOk hw bus 0x10
  refine ⟨?_, hfirst, ?_, hcount, ?_, ?_, ?_⟩
  · simpa using h3 hok
  · rw [hfirst, hmode]
    decide
  · rw [hlast]
  · rw [hlast]
    exact hcount
  · rw [removeAcceptanceFilters_trace, addAcceptanceFilter_afMode, hlast]
    simp only
    rw [hassigned]
    decide

/-- C12 witness: the scenario on a fresh bus 1 with six free slots. -/
theorem scenario_six_filters_witness :
    (addAcceptanceFilters (fun _ => true) (initialPlatform 6) (initialBus 1 6)
      [0x10, 0x20, 0x30, 0x40, 0x50, 0x60]).1 = [true, true, true, true, true, true] ∧
    (addAcceptanceFilter (fun _ => true)
      (addAcceptanceFilters (fun _ => true) (initialPlatform 6) (initialBus 1 6)
        [0x10, 0x20, 0x30, 0x40, 0x50, 0x60]).2.1
      (addAcceptanceFilters (fun _ => true) (initialPlatform 6) (initialBus 1 6)
        [0x10, 0x20, 0x30, 0x40, 0x50, 0x60]).2.2
      0x70).1 = false :=
  have h := scenario_six_filters (fun _ => true) (initialPlatform 6) (initialBus 1 6)
    (fun _ => rfl) rfl rfl rfl
  ⟨h.1, h.2.2.2.2.1⟩

/-! ## Controller bring-up happens once -/

/-- The `CAN_Init` loop issues one call per bus, each stamped with the value the
static had on entry, and does not write the static. -/
theorem canInitLoop_eq (canBuses : List CanBusConfig) :
    ∀ st : BringUp, canInitLoop canBuses st
      = { st with steps := st.steps
            ++ canBuses.map (fun b =>
                BringUpStep.call (ControllerCall.CAN_Init b.address b.speed)
                  st.CAN_CONTROLLER_INITIALIZED) } := by
  induction canBuses with
  | nil => intro st; simp [canInitLoop]
  | cons b bs ih =>
    intro st
    have h := ih (controllerCall st (ControllerCall.CAN_Init b.address b.speed))
    simp only [canInitLoop, List.foldl_cons] at h ⊢
    rw [h]
    simp [controllerCall]

theorem canInitCalls_append (a b : List BringUpStep) :
    canInitCalls (a ++ b) = canInitCalls a ++ canInitCalls b := by
  induction a with
  | nil => rfl
  | cons c cs ih =>
    cases c with
    | setInitialized => simp [canInitCalls, ih]
    | call c v => cases c <;> simp [canInitCalls, ih]

theorem canInitCalls_map_CAN_Init (canBuses : List CanBusConfig) (v : Bool) :
    canInitCalls (canBuses.map (fun b =>
        BringUpStep.call (ControllerCall.CAN_Init b.address b.speed) v))
      = canBuses.map (fun b => (b.address, b.speed)) := by
  induction canBuses with
  | nil => rfl
  | cons b bs ih => simp [canInitCalls, ih]

theorem countSetInitialized_append (a b : List BringUpStep) :
    countSetInitialized (a ++ b) = countSetInitialized a + countSetInitialized b := by
  induction a with
  | nil => simp [countSetInitialized]
  | cons c cs ih =>
    cases c with
    | setInitialized => simp [countSetInitialized, ih]; omega
    | call c v => simp [countSetInitialized, ih]

theorem countSetInitialized_map_CAN_Init (canBuses : List CanBusConfig) (v : Bool) :
    countSetInitialized (canBuses.map (fun b =>
        BringUpStep.call (ControllerCall.CAN_Init b.address b.speed) v)) = 0 := by
  induction canBuses with
  | nil => rfl
  | cons b bs ih => simp [countSetInitialized, ih]

/-- The static is `true` after every call of `initialize`. -/
theorem initializeCanBus_latched (canBuses : List CanBusConfig)
    (initializeCommon : CanBus → CanBus)
    (configureDefaultFilters : Platform → CanBus → Bool × Platform × CanBus)
    (st : BringUp) (hw : Platform) (bus : CanBus) (writable : Bool) :
    (initializeCanBus canBuses initializeCommon configureDefaultFilters st hw bus
      writable).1.CAN_CONTROLLER_INITIALIZED = true := by
  cases h : st.CAN_CONTROLLER_INITIALIZED <;>
    simp [initializeCanBus, h, controllerCall, setControllerInitialized]

/-- Once the static is `true`, a call of `initialize` issues no `CAN_Init` and
does not assign the static again. -/
theorem initializeCanBus_of_latched (canBuses : List CanBusConfig)
    (initializeCommon : CanBus → CanBus)
    (configureDefaultFilters : Platform → CanBus → Bool × Platform × CanBus)
    (st : BringUp) (hw : Platform) (bus : CanBus) (writable : Bool)
    (h : st.CAN_CONTROLLER_INITIALIZED = true) :
    canInitCalls (initializeCanBus canBuses initializeCommon configureDefaultFilters st hw
      bus writable).1.steps = canInitCalls st.steps ∧
    countSetInitialized (initializeCanBus canBuses initializeCommon configureDefaultFilters
      st hw bus writable).1.steps = countSetInitialized st.steps := by
  simp [initializeCanBus, h, controllerCall, canInitCalls_append, canInitCalls,
    countSetInitialized_append, countSetInitialized]

theorem initializeCanBuses_of_latched (canBuses : List CanBusConfig)
    (initializeCommon : CanBus → CanBus)
    (configureDefaultFilters : Platform → CanBus → Bool × Platform × CanBus)
    (calls : List (CanBus × Bool)) :
    ∀ (st : BringUp) (hw : Platform), st.CAN_CONTROLLER_INITIALIZED = true →
      (initializeCanBuses canBuses initializeCommon configureDefaultFilters st hw
        calls).1.CAN_CONTROLLER_INITIALIZED = true ∧
      canInitCalls (initializeCanBuses canBuses initializeCommon configureDefaultFilters st hw
        calls).1.steps = canInitCalls st.steps ∧
      countSetInitialized (initializeCanBuses canBuses initializeCommon
        configureDefaultFilters st hw calls).1.steps = countSetInitialized st.steps := by
  induction calls with
  | nil => intro st hw h; exact ⟨h, rfl, rfl⟩
  | cons call calls ih =>
    intro st hw h
    have h1 := initializeCanBus_latched canBuses initializeCommon configureDefaultFilters
      st hw call.1 call.2
    have h2 := initializeCanBus_of_latched canBuses initializeCommon configureDefaultFilters
      st hw call.1 call.2 h
    obtain ⟨h3, h4, h5⟩ := ih
      (initializeCanBus canBuses initializeCommon configureDefaultFilters st hw
        call.1 call.2).1
      (initializeCanBus canBuses initializeCommon configureDefaultFilters st hw
        call.1 call.2).2.1 h1
    exact ⟨h3, h4.trans h2.1, h5.trans h2.2⟩

/-- The first call of `initialize` after process start: the `CAN_Init` calls, one
per configured bus in order, are issued while the static is `false`; then the
static is assigned; then the calls for the bus itself follow, the static being
`true`. -/
theorem initializeCanBus_processStart (canBuses : List CanBusConfig)
    (initializeCommon : CanBus → CanBus)
    (configureDefaultFilters : Platform → CanBus → Bool × Platform × CanBus)
    (hw : Platform) (bus : CanBus) (writable : Bool) :
    (initializeCanBus canBuses initializeCommon configureDefaultFilters processStart hw bus
      writable).1.steps
      = canBuses.map (fun b =>
          BringUpStep.call (ControllerCall.CAN_Init b.address b.speed) false)
        ++ [BringUpStep.setInitialized,
            BringUpStep.call (ControllerCall.CAN_ModeConfig (initializeCommon bus).address
              (if writable then CAN_MODE_Type.CAN_OPERATING_MODE
               else CAN_MODE_Type.CAN_LISTENONLY_MODE)) true,
            BringUpStep.call (ControllerCall.CAN_IRQCmd (initializeCommon bus).address
              CAN_INT_EN_Type.CANINT_RIE) true,
            BringUpStep.call (ControllerCall.CAN_IRQCmd (initializeCommon bus).address
              CAN_INT_EN_Type.CANINT_TIE1) true,
            BringUpStep.call ControllerCall.NVIC_EnableIRQ true] := by
  simp [initializeCanBus, processStart, canInitLoop_eq, controllerCall,
    setControllerInitialized]

/-- C13 (bring-up once). For every non-empty sequence `first :: rest` of calls of
`initialize` after process start, with any buses and `writable` flags: the
static is `false` before the first call; after any number of iterations of the
`CAN_Init` loop it is still `false`, every `CAN_Init` so far was issued with the
static `false`, and no assignment of the static has happened; the trace of the
first call is one `CAN_Init` per configured bus, in order and each with the
static `false`, then the assignment of the static, then the other controller
calls with the static `true`, so the static is set only after the loop over all
controllers has completed; the whole sequence issues exactly those `CAN_Init`
calls and assigns the static exactly once; and the static is `true` after the
first call and after every later one. -/
theorem controllers_brought_up_once (canBuses : List CanBusConfig)
    (initializeCommon : CanBus → CanBus)
    (configureDefaultFilters : Platform → CanBus → Bool × Platform × CanBus)
    (hw : Platform) (first : CanBus × Bool) (rest : List (CanBus × Bool)) :
    processStart.CAN_CONTROLLER_INITIALIZED = false ∧
    (∀ k, canInitLoop (canBuses.take k) processStart
      = { CAN_CONTROLLER_INITIALIZED := false,
          steps := (canBuses.take k).map (fun b =>
            BringUpStep.call (ControllerCall.CAN_Init b.address b.speed) false) }) ∧
    (initializeCanBus canBuses initializeCommon configureDefaultFilters processStart hw
      first.1 first.2).1.steps
      = canBuses.map (fun b =>
          BringUpStep.call (ControllerCall.CAN_Init b.address b.speed) false)
        ++ [BringUpStep.setInitialized,
            BringUpStep.call (ControllerCall.CAN_ModeConfig (initializeCommon first.1).address
              (if first.2 then CAN_MODE_Type.CAN_OPERATING_MODE
               else CAN_MODE_Type.CAN_LISTENONLY_MODE)) true,
            BringUpStep.call (ControllerCall.CAN_IRQCmd (initializeCommon first.1).address
              CAN_INT_EN_Type.CANINT_RIE) true,
            BringUpStep.call (ControllerCall.CAN_IRQCmd (initializeCommon first.1).address
              CAN_INT_EN_Type.CANINT_TIE1) true,
            BringUpStep.call ControllerCall.NVIC_EnableIRQ true] ∧
    canInitCalls (initializeCanBus canBuses initializeCommon configureDefaultFilters
      processStart hw first.1 first.2).1.steps
      = canBuses.map (fun b => (b.address, b.speed)) ∧
    canInitCalls (initializeCanBuses canBuses initializeCommon configureDefaultFilters
      processStart hw (first :: rest)).1.steps
      = canBuses.map (fun b => (b.address, b.speed)) ∧
    countSetInitialized (initializeCanBuses canBuses initializeCommon
      configureDefaultFilters processStart hw (first :: rest)).1.steps = 1 ∧
    (∀ m, (initializeCanBuses canBuses initializeCommon configureDefaultFilters
      processStart hw ((first :: rest).take (m + 1))).1.CAN_CONTROLLER_INITIALIZED = true) := by
  have hfirst := initializeCanBus_processStart canBuses initializeCommon
    configureDefaultFilters hw first.1 first.2
  have hlatch := initializeCanBus_latched canBuses initializeCommon
    configureDefaultFilters processStart hw first.1 first.2
  have hinit : canInitCalls (initializeCanBus canBuses initializeCommon
      configureDefaultFilters processStart hw first.1 first.2).1.steps
      = canBuses.map (fun b => (b.address, b.speed)) := by
    rw [hfirst, canInitCalls_append, canInitCalls_map_CAN_Init]
    simp [canInitCalls]
  have hset : countSetInitialized (initializeCanBus canBuses initializeCommon
      configureDefaultFilters processStart hw first.1 first.2).1.steps = 1 := by
    rw [hfirst, countSetInitialized_append, countSetInitialized_map_CAN_Init]
    simp [countSetInitialized]
  refine ⟨rfl, ?_, hfirst, hinit, ?_, ?_, ?_⟩
  · intro k
    rw [canInitLoop_eq]
    simp [processStart]
  · have h := initializeCanBuses_of_latched canBuses initializeCommon
      configureDefaultFilters rest _ (initializeCanBus canBuses initializeCommon
        configureDefaultFilters processStart hw first.1 first.2).2.1 hlatch
    simp only [initializeCanBuses]
    rw [h.2.1, hinit]
  · have h := initializeCanBuses_of_latched canBuses initializeCommon
      configureDefaultFilters rest _ (initializeCanBus canBuses initializeCommon
        configureDefaultFilters processStart hw first.1 first.2).2.1 hlatch
    simp only [initializeCanBuses]
    rw [h.2.2, hset]
  · intro m
    have h := initializeCanBuses_of_latched canBuses initializeCommon
      configureDefaultFilters (rest.take m) _ (initializeCanBus canBuses initializeCommon
        configureDefaultFilters processStart hw first.1 first.2).2.1 hlatch
    simp only [List.take_succ_cons, initializeCanBuses]
    exact h.1

/-! ## Mode passthrough -/

/-- C14 (mode passthrough). For every bus, prior platform state and `enabled`,
`setAcceptanceFilterStatus(bus, enabled)` returns `true` and leaves the receive
mode normal when `enabled` is true and bypass when it is false. It makes the one
driver call `CAN_SetAFMode`, leaves the table globals alone, and its outcome is
the same for every bus: the bus is only an unused argument, so neither its
assigned list nor its free list is changed. -/
theorem setAcceptanceFilterStatus_passthrough (hw : Platform) (bus : CanBus)
    (enabled : Bool) :
    (setAcceptanceFilterStatus hw bus enabled).1 = true ∧
    (setAcceptanceFilterStatus hw bus true).2.afMode = CAN_AFMODE_Type.CAN_Normal ∧
    (setAcceptanceFilterStatus hw bus false).2.afMode = CAN_AFMODE_Type.CAN_AccBP ∧
    (setAcceptanceFilterStatus hw bus enabled).2.calls
      = hw.calls ++ [DriverCall.SetAFMode
          (if enabled then CAN_AFMODE_Type.CAN_Normal else CAN_AFMODE_Type.CAN_AccBP)] ∧
    (setAcceptanceFilterStatus hw bus enabled).2.STANDARD_AF_TABLE = hw.STANDARD_AF_TABLE ∧
    (setAcceptanceFilterStatus hw bus enabled).2.AF_TABLE = hw.AF_TABLE ∧
    (∀ other : CanBus,
      setAcceptanceFilterStatus hw other enabled = setAcceptanceFilterStatus hw bus enabled) := by
  cases enabled <;> simp [setAcceptanceFilterStatus, CAN_SetAFMode]

/-! ## Dedup invariant -/

/-- Each operation keeps the assigned identifiers pairwise distinct. -/
theorem applyOp_nodup (setupOk : Platform → Bool) (s : Platform × CanBus) (op : FilterOp)
    (h : (assignedIds s.2).Nodup) : (assignedIds (applyOp setupOk s op).2).Nodup := by
  cases op with
  | add id =>
    simp only [applyOp]
    by_cases hin : id ∈ assignedIds s.2
    · rw [addAcceptanceFilter_of_assigned setupOk s.1 s.2 id hin]
      exact h
    · cases hf : s.2.freeAcceptanceFilters with
      | nil =>
        rw [addAcceptanceFilter_of_exhausted setupOk s.1 s.2 id hin hf]
        exact h
      | cons e rest =>
        rw [addAcceptanceFilter_of_free setupOk s.1 s.2 id e rest hin hf]
        simp only [assignedIds, List.map_cons]
        exact List.nodup_cons.2 ⟨hin, h⟩
  | remove id =>
    simp only [applyOp]
    rw [assignedIds_removeAcceptanceFilter]
    exact h.erase id

theorem runOps_nodup (setupOk : Platform → Bool) (ops : List FilterOp) :
    ∀ s : Platform × CanBus, (assignedIds s.2).Nodup →
      (assignedIds (runOps setupOk s ops).2).Nodup := by
  induction ops with
  | nil => intro s h; exact h
  | cons op ops ih =>
    intro s h
    simpa [runOps] using ih (applyOp setupOk s op) (applyOp_nodup setupOk s op h)

/-- C15 (dedup invariant). In every state reached from a bus with an empty
assigned list by any sequence of `addAcceptanceFilter` and
`removeAcceptanceFilter` calls, whatever the driver answers, no identifier
appears in more than one entry of the assigned list. -/
theorem dedup_invariant (setupOk : Platform → Bool) (hw : Platform) (bus : CanBus)
    (ops : List FilterOp) (hempty : bus.acceptanceFilters = []) :
    (assignedIds (runOps setupOk (hw, bus) ops).2).Nodup := by
  apply runOps_nodup
  simp [assignedIds, hempty]

/-- C15 witness: adds with a repeated identifier and a removal in between. -/
theorem dedup_invariant_witness :
    (assignedIds (runOps (fun _ => true) (initialPlatform 6, initialBus 1 6)
      [FilterOp.add 0x10, FilterOp.add 0x20, FilterOp.add 0x10, FilterOp.remove 0x20,
       FilterOp.add 0x10, FilterOp.add 0x20]).2).Nodup :=
  dedup_invariant (fun _ => true) (initialPlatform 6) (initialBus 1 6)
    [FilterOp.add 0x10, FilterOp.add 0x20, FilterOp.add 0x10, FilterOp.remove 0x20,
     FilterOp.add 0x10, FilterOp.add 0x20] rfl

/-! ## Table reapplication on removal -/

theorem countSetupAFLUT_append (a b : List DriverCall) :
    countSetupAFLUT (a ++ b) = countSetupAFLUT a + countSetupAFLUT b := by
  induction a with
  | nil => simp [countSetupAFLUT]
  | cons c cs ih =>
    cases c with
    | SetAFMode m => simp [countSetupAFLUT, ih]
    | SetupAFLUT t => simp [countSetupAFLUT, ih]; omega

/-- C16 (reapply after release). When `id` is assigned,
`removeAcceptanceFilter(bus, id)` rebuilds the table and applies it exactly
once, as its last driver call; when the assigned list becomes empty the request
for bypass mode is issued first and the apply follows it, otherwise the apply is
the only driver call. When `id` is not assigned no driver call is made at all. -/
theorem remove_reapplies_table_once (setupOk : Platform → Bool) (hw : Platform)
    (bus : CanBus) (id : Nat) :
    (id ∈ assignedIds bus →
      (removeAcceptanceFilter setupOk hw bus id).1.calls
        = hw.calls
          ++ (if (removeAcceptanceFilter setupOk hw bus id).2.acceptanceFilters = [] then
                [DriverCall.SetAFMode CAN_AFMODE_Type.CAN_AccBP] else [])
          ++ [DriverCall.SetupAFLUT (removeAcceptanceFilter setupOk hw bus id).1.AF_TABLE] ∧
      (removeAcceptanceFilter setupOk hw bus id).1.AF_TABLE.SFF_Sec
        = (removeAcceptanceFilter setupOk hw bus id).1.STANDARD_AF_TABLE ∧
      countSetupAFLUT (removeAcceptanceFilter setupOk hw bus id).1.calls
        = countSetupAFLUT hw.calls + 1) ∧
    (id ∉ assignedIds bus →
      (removeAcceptanceFilter setupOk hw bus id).1.calls = hw.calls ∧
      countSetupAFLUT (removeAcceptanceFilter setupOk hw bus id).1.calls
        = countSetupAFLUT hw.calls) := by
  refine ⟨?_, ?_⟩
  · intro hin
    obtain ⟨i, hi⟩ := findFilter_isSome_of_mem bus.acceptanceFilters id hin
    rw [removeAcceptanceFilter_of_found setupOk hw bus id i hi]
    by_cases hemp : bus.acceptanceFilters.eraseIdx i = []
    · simp [hemp, updateAcceptanceFilterTable, CAN_SetupAFLUT, CAN_SetAFMode,
        countSetupAFLUT_append, countSetupAFLUT]
    · simp [hemp, updateAcceptanceFilterTable, CAN_SetupAFLUT,
        countSetupAFLUT_append, countSetupAFLUT]
  · intro hnot
    have hn := (findFilter_eq_none_iff bus.acceptanceFilters id).2 hnot
    simp [removeAcceptanceFilter, hn]

/-- C16 witness: the only filter of a bus is removed; bypass is requested, then
the table is applied. -/
theorem remove_reapplies_table_once_witness :
    (removeAcceptanceFilter (fun _ => true) (initialPlatform 6)
        ⟨1, [⟨0, 0x10⟩], [⟨1, 0⟩]⟩ 0x10).1.calls
      = (initialPlatform 6).calls
        ++ (if (removeAcceptanceFilter (fun _ => true) (initialPlatform 6)
              ⟨1, [⟨0, 0x10⟩], [⟨1, 0⟩]⟩ 0x10).2.acceptanceFilters = [] then
              [DriverCall.SetAFMode CAN_AFMODE_Type.CAN_AccBP] else [])
        ++ [DriverCall.SetupAFLUT (removeAcceptanceFilter (fun _ => true) (initialPlatform 6)
              ⟨1, [⟨0, 0x10⟩], [⟨1, 0⟩]⟩ 0x10).1.AF_TABLE] ∧
    countSetupAFLUT (removeAcceptanceFilter (fun _ => true) (initialPlatform 6)
        ⟨1, [⟨0, 0x10⟩], [⟨1, 0⟩]⟩ 0x10).1.calls
      = countSetupAFLUT (initialPlatform 6).calls + 1 :=
  have h := (remove_reapplies_table_once (fun _ => true) (initialPlatform 6)
    ⟨1, [⟨0, 0x10⟩], [⟨1, 0⟩]⟩ 0x10).1 (by decide)
  ⟨h.1, h.2.2⟩

/-! ## Removal postcondition -/

/-- The scan stops at the first entry carrying `id`: the list splits around it,
no earlier entry carries `id`, and unlinking the entry leaves the two parts in
place. -/
theorem findFilter_split (l : List AcceptanceFilterListEntry) (id i : Nat)
    (h : findFilter l id = some i) :
    ∃ pre e post, l = pre ++ e :: post ∧ pre.length = i ∧ e.filter = id ∧
      (∀ x ∈ pre, x.filter ≠ id) ∧ l.eraseIdx i = pre ++ post := by
  induction l generalizing i with
  | nil => simp [findFilter] at h
  | cons a rest ih =>
    by_cases he : a.filter = id
    · simp [findFilter, he] at h
      subst h
      exact ⟨[], a, rest, rfl, rfl, he, by simp, rfl⟩
    · cases hr : findFilter rest id with
      | none => simp [findFilter, he, hr] at h
      | some j =>
        simp [findFilter, he, hr] at h
        subst h
        obtain ⟨pre, e, post, h1, h2, h3, h4, h5⟩ := ih j hr
        refine ⟨a :: pre, e, post, by simp [h1], by simp [h2], h3, ?_, by simp [h5]⟩
        intro x hx
        rcases List.mem_cons.1 hx with hxa | hxp
        · rw [hxa]; exact he
        · exact h4 x hxp

/-- C17 (removal postcondition). When `id` is in the assigned list,
`removeAcceptanceFilter(bus, id)` removes exactly one entry, the first one whose
filter equals `id`: the list was `pre ++ e :: post` with `e` carrying `id` and no
entry of `pre` carrying it, and it becomes `pre ++ post`, so the assigned count
drops by one and every other entry stays, with its identifier and in the same
order; the free list is untouched; and when the assigned identifiers were
pairwise distinct, `id` is no longer assigned afterwards. -/
theorem removal_postcondition (setupOk : Platform → Bool) (hw : Platform)
    (bus : CanBus) (id : Nat) (hid : id ∈ assignedIds bus) :
    (∃ pre e post, bus.acceptanceFilters = pre ++ e :: post ∧ e.filter = id ∧
      (∀ x ∈ pre, x.filter ≠ id) ∧
      (removeAcceptanceFilter setupOk hw bus id).2.acceptanceFilters = pre ++ post) ∧
    (removeAcceptanceFilter setupOk hw bus id).2.acceptanceFilters.length + 1
      = bus.acceptanceFilters.length ∧
    (removeAcceptanceFilter setupOk hw bus id).2.freeAcceptanceFilters
      = bus.freeAcceptanceFilters ∧
    ((assignedIds bus).Nodup →
      id ∉ assignedIds (removeAcceptanceFilter setupOk hw bus id).2) := by
  obtain ⟨i, hi⟩ := findFilter_isSome_of_mem bus.acceptanceFilters id hid
  obtain ⟨pre, e, post, h1, _, h3, h4, h5⟩ := findFilter_split bus.acceptanceFilters id i hi
  have hafter : (removeAcceptanceFilter setupOk hw bus id).2.acceptanceFilters
      = pre ++ post := by
    rw [removeAcceptanceFilter_of_found setupOk hw bus id i hi]
    exact h5
  refine ⟨⟨pre, e, post, h1, h3, h4, hafter⟩, ?_, ?_, ?_⟩
  · rw [hafter, h1]
    simp
    omega
  · exact removeAcceptanceFilter_freeAcceptanceFilters setupOk hw bus id
  · intro hnd
    rw [assignedIds_removeAcceptanceFilter]
    exact hnd.not_mem_erase

/-- C17 witness: `0x20` is removed from the assigned list `0x30, 0x20, 0x10`. -/
theorem removal_postcondition_witness :
    (removeAcceptanceFilter (fun _ => true) (initialPlatform 6)
        ⟨1, [⟨2, 0x30⟩, ⟨1, 0x20⟩, ⟨0, 0x10⟩], [⟨3, 0⟩]⟩ 0x20).2.acceptanceFilters.length + 1
      = (⟨1, [⟨2, 0x30⟩, ⟨1, 0x20⟩, ⟨0, 0x10⟩], [⟨3, 0⟩]⟩ : CanBus).acceptanceFilters.length ∧
    0x20 ∉ assignedIds (removeAcceptanceFilter (fun _ => true) (initialPlatform 6)
        ⟨1, [⟨2, 0x30⟩, ⟨1, 0x20⟩, ⟨0, 0x10⟩], [⟨3, 0⟩]⟩ 0x20).2 :=
  have h := removal_postcondition (fun _ => true) (initialPlatform 6)
    ⟨1, [⟨2, 0x30⟩, ⟨1, 0x20⟩, ⟨0, 0x10⟩], [⟨3, 0⟩]⟩ 0x20 (by decide)
  ⟨h.2.1, h.2.2.2 (by decide)⟩

/-! ## The free list never grows -/

/-- An `addAcceptanceFilter` call shortens the free list by one entry when it
takes the allocating path and leaves it alone otherwise. -/
theorem addAcceptanceFilter_free_length (setupOk : Platform → Bool) (hw : Platform)
    (bus : CanBus) (id : Nat) :
    (addAcceptanceFilter setupOk hw bus id).2.2.freeAcceptanceFilters.length
        + (if allocates bus id then 1 else 0)
      = bus.freeAcceptanceFilters.length := by
  by_cases hin : id ∈ assignedIds bus
  · obtain ⟨i, hi⟩ := findFilter_isSome_of_mem bus.acceptanceFilters id hin
    rw [addAcceptanceFilter_of_assigned setupOk hw bus id hin]
    simp [allocates, hi]
  · have hn := (findFilter_eq_none_iff bus.acceptanceFilters id).2 hin
    cases hf : bus.freeAcceptanceFilters with
    | nil =>
      rw [addAcceptanceFilter_of_exhausted setupOk hw bus id hin hf]
      simp [allocates, hn, hf, popListEntry]
    | cons e rest =>
      rw [addAcceptanceFilter_of_free setupOk hw bus id e rest hin hf]
      simp [allocates, hn, hf, popListEntry]

/-- Along any sequence of operations, the allocating adds and the entries left
in the free list add up to the entries the free list started with. -/
theorem countAllocations_add_free (setupOk : Platform → Bool) (ops : List FilterOp) :
    ∀ s : Platform × CanBus,
      countAllocations setupOk s ops
          + (runOps setupOk s ops).2.freeAcceptanceFilters.length
        = s.2.freeAcceptanceFilters.length := by
  induction ops with
  | nil => intro s; simp [countAllocations, runOps]
  | cons op ops ih =>
    intro s
    cases op with
    | add id =>
      have hstep := addAcceptanceFilter_free_length setupOk s.1 s.2 id
      have hrest := ih (applyOp setupOk s (FilterOp.add id))
      simp only [applyOp] at hrest
      simp only [countAllocations, runOps, List.foldl_cons, applyOp] at hrest ⊢
      omega
    | remove id =>
      have hstep := removeAcceptanceFilter_freeAcceptanceFilters setupOk s.1 s.2 id
      have hrest := ih (applyOp setupOk s (FilterOp.remove id))
      simp only [applyOp] at hrest
      simp only [countAllocations, runOps, List.foldl_cons, applyOp] at hrest ⊢
      rw [hstep] at hrest
      exact hrest

/-- C18 (free list never grows). For every bus state `addAcceptanceFilter` never
lengthens the free list and `removeAcceptanceFilter` leaves it unchanged; hence
along any sequence of operations from a state with `MAX_SLOTS` free entries, the
number of `addAcceptanceFilter` calls that allocate a slot plus the entries
still free equals `MAX_SLOTS`, so at most `MAX_SLOTS` calls ever allocate,
however many removals are interleaved. -/
theorem free_list_never_grows (MAX_SLOTS : Nat) (setupOk : Platform → Bool)
    (hw : Platform) (bus : CanBus) (ops : List FilterOp)
    (hcap : bus.freeAcceptanceFilters.length = MAX_SLOTS) :
    (∀ (hw1 : Platform) (bus1 : CanBus) (id : Nat),
      (addAcceptanceFilter setupOk hw1 bus1 id).2.2.freeAcceptanceFilters.length
        ≤ bus1.freeAcceptanceFilters.length) ∧
    (∀ (hw1 : Platform) (bus1 : CanBus) (id : Nat),
      (removeAcceptanceFilter setupOk hw1 bus1 id).2.freeAcceptanceFilters
        = bus1.freeAcceptanceFilters) ∧
    countAllocations setupOk (hw, bus) ops
        + (runOps setupOk (hw, bus) ops).2.freeAcceptanceFilters.length = MAX_SLOTS ∧
    countAllocations setupOk (hw, bus) ops ≤ MAX_SLOTS := by
  have hsum := countAllocations_add_free setupOk ops (hw, bus)
  simp only at hsum
  refine ⟨?_, ?_, ?_, ?_⟩
  · intro hw1 bus1 id
    have := addAcceptanceFilter_free_length setupOk hw1 bus1 id
    omega
  · intro hw1 bus1 id
    exact removeAcceptanceFilter_freeAcceptanceFilters setupOk hw1 bus1 id
  · omega
  · omega

/-- C18 witness: two slots; the third distinct add finds no slot although both
earlier filters were removed. -/
theorem free_list_never_grows_witness :
    countAllocations (fun _ => true) (initialPlatform 2, initialBus 1 2)
        [FilterOp.add 0x10, FilterOp.remove 0x10, FilterOp.add 0x20, FilterOp.remove 0x20,
         FilterOp.add 0x30]
      + (runOps (fun _ => true) (initialPlatform 2, initialBus 1 2)
        [FilterOp.add 0x10, FilterOp.remove 0x10, FilterOp.add 0x20, FilterOp.remove 0x20,
         FilterOp.add 0x30]).2.freeAcceptanceFilters.length = 2 ∧
    countAllocations (fun _ => true) (initialPlatform 2, initialBus 1 2)
        [FilterOp.add 0x10, FilterOp.remove 0x10, FilterOp.add 0x20, FilterOp.remove 0x20,
         FilterOp.add 0x30] ≤ 2 :=
  have h := free_list_never_grows 2 (fun _ => true) (initialPlatform 2) (initialBus 1 2)
    [FilterOp.add 0x10, FilterOp.remove 0x10, FilterOp.add 0x20, FilterOp.remove 0x20,
     FilterOp.add 0x30] rfl
  ⟨h.2.2.1, h.2.2.2⟩

/-! ## Cross-bus mode coupling -/

/-- C19 (cross-bus mode coupling). The receive mode is one value of the shared
platform state and `setAcceptanceFilterStatus` gives the same outcome whatever
bus it is passed. Every `addAcceptanceFilter` on bus A leaves the shared mode
normal and bus B as it was. And there is a reachable two-bus state, with one
filter on each bus, from which removing the last filter of bus A leaves the
shared mode bypass while bus B still has its filter assigned. -/
theorem cross_bus_mode_coupling :
    (∀ (hw : Platform) (busA busB : CanBus) (enabled : Bool),
      setAcceptanceFilterStatus hw busA enabled = setAcceptanceFilterStatus hw busB enabled) ∧
    (∀ (setupOk : Platform → Bool) (s : TwoBuses) (id : Nat),
      (applyTwoBusOp setupOk s (TwoBusOp.onA (FilterOp.add id))).hw.afMode
        = CAN_AFMODE_Type.CAN_Normal ∧
      (applyTwoBusOp setupOk s (TwoBusOp.onA (FilterOp.add id))).busB = s.busB) ∧
    (∃ ops : List TwoBusOp,
      assignedIds (runTwoBusOps (fun _ => true)
        ⟨initialPlatform 6, initialBus 1 6, initialBus 2 6⟩ ops).busA = [0x10] ∧
      assignedIds (runTwoBusOps (fun _ => true)
        ⟨initialPlatform 6, initialBus 1 6, initialBus 2 6⟩ ops).busB = [0x20] ∧
      (runTwoBusOps (fun _ => true)
        ⟨initialPlatform 6, initialBus 1 6, initialBus 2 6⟩ ops).hw.afMode
          = CAN_AFMODE_Type.CAN_Normal ∧
      (applyTwoBusOp (fun _ => true)
        (runTwoBusOps (fun _ => true)
          ⟨initialPlatform 6, initialBus 1 6, initialBus 2 6⟩ ops)
        (TwoBusOp.onA (FilterOp.remove 0x10))).hw.afMode = CAN_AFMODE_Type.CAN_AccBP ∧
      assignedIds (applyTwoBusOp (fun _ => true)
        (runTwoBusOps (fun _ => true)
          ⟨initialPlatform 6, initialBus 1 6, initialBus 2 6⟩ ops)
        (TwoBusOp.onA (FilterOp.remove 0x10))).busA = [] ∧
      assignedIds (applyTwoBusOp (fun _ => true)
        (runTwoBusOps (fun _ => true)
          ⟨initialPlatform 6, initialBus 1 6, initialBus 2 6⟩ ops)
        (TwoBusOp.onA (FilterOp.remove 0x10))).busB = [0x20]) := by
  refine ⟨?_, ?_, ?_⟩
  · intro hw busA busB enabled
    simp [setAcceptanceFilterStatus]
  · intro setupOk s id
    exact ⟨addAcceptanceFilter_afMode setupOk s.hw s.busA id, rfl⟩
  · exact ⟨[TwoBusOp.onA (FilterOp.add 0x10), TwoBusOp.onB (FilterOp.add 0x20)], by decide⟩

end CanUtil
